import Mathlib

/-!
Verification development for the Docker MCP Bridge repository
(`utils.py`, `mcp_host.py`, `prompts.py`, `test.py`, `provider.py`).

The Python values manipulated by the bridge are JSON-shaped dictionaries,
lists and scalars; they are embedded by the `Json` type below.  Python
dictionaries are modelled as ordered association lists (Python 3 dicts
preserve insertion order; setting an existing key keeps its position,
setting a new key appends).  Operations that can raise a Python exception
are modelled with `Option`/`Except`; external collaborators (the JSON
codec of the standard library, the HTTP transport, the chat API and the
gateway behind it) are modelled as explicit oracle parameters.
-/

namespace Bridge

/-- JSON-shaped Python values (dicts as ordered association lists). -/
inductive Json where
  | null
  | bool (b : Bool)
  | num (n : Int)
  | str (s : String)
  | arr (elems : List Json)
  | obj (fields : List (String × Json))
deriving Repr

mutual

/-- Decidable equality on `Json` (spelled out because `deriving` does not
handle the nested `List` occurrences). -/
def Json.decEq : (a b : Json) → Decidable (a = b)
  | Json.null, Json.null => isTrue rfl
  | Json.null, Json.bool _ => isFalse (fun h => Json.noConfusion h)
  | Json.null, Json.num _ => isFalse (fun h => Json.noConfusion h)
  | Json.null, Json.str _ => isFalse (fun h => Json.noConfusion h)
  | Json.null, Json.arr _ => isFalse (fun h => Json.noConfusion h)
  | Json.null, Json.obj _ => isFalse (fun h => Json.noConfusion h)
  | Json.bool _, Json.null => isFalse (fun h => Json.noConfusion h)
  | Json.bool x, Json.bool y =>
      if h : x = y then isTrue (by rw [h]) else isFalse (fun c => h (by injection c))
  | Json.bool _, Json.num _ => isFalse (fun h => Json.noConfusion h)
  | Json.bool _, Json.str _ => isFalse (fun h => Json.noConfusion h)
  | Json.bool _, Json.arr _ => isFalse (fun h => Json.noConfusion h)
  | Json.bool _, Json.obj _ => isFalse (fun h => Json.noConfusion h)
  | Json.num _, Json.null => isFalse (fun h => Json.noConfusion h)
  | Json.num _, Json.bool _ => isFalse (fun h => Json.noConfusion h)
  | Json.num x, Json.num y =>
      if h : x = y then isTrue (by rw [h]) else isFalse (fun c => h (by injection c))
  | Json.num _, Json.str _ => isFalse (fun h => Json.noConfusion h)
  | Json.num _, Json.arr _ => isFalse (fun h => Json.noConfusion h)
  | Json.num _, Json.obj _ => isFalse (fun h => Json.noConfusion h)
  | Json.str _, Json.null => isFalse (fun h => Json.noConfusion h)
  | Json.str _, Json.bool _ => isFalse (fun h => Json.noConfusion h)
  | Json.str _, Json.num _ => isFalse (fun h => Json.noConfusion h)
  | Json.str x, Json.str y =>
      if h : x = y then isTrue (by rw [h]) else isFalse (fun c => h (by injection c))
  | Json.str _, Json.arr _ => isFalse (fun h => Json.noConfusion h)
  | Json.str _, Json.obj _ => isFalse (fun h => Json.noConfusion h)
  | Json.arr _, Json.null => isFalse (fun h => Json.noConfusion h)
  | Json.arr _, Json.bool _ => isFalse (fun h => Json.noConfusion h)
  | Json.arr _, Json.num _ => isFalse (fun h => Json.noConfusion h)
  | Json.arr _, Json.str _ => isFalse (fun h => Json.noConfusion h)
  | Json.arr x, Json.arr y =>
      match Json.decEqList x y with
      | isTrue h => isTrue (by rw [h])
      | isFalse h => isFalse (fun c => h (by injection c))
  | Json.arr _, Json.obj _ => isFalse (fun h => Json.noConfusion h)
  | Json.obj _, Json.null => isFalse (fun h => Json.noConfusion h)
  | Json.obj _, Json.bool _ => isFalse (fun h => Json.noConfusion h)
  | Json.obj _, Json.num _ => isFalse (fun h => Json.noConfusion h)
  | Json.obj _, Json.str _ => isFalse (fun h => Json.noConfusion h)
  | Json.obj _, Json.arr _ => isFalse (fun h => Json.noConfusion h)
  | Json.obj x, Json.obj y =>
      match Json.decEqFields x y with
      | isTrue h => isTrue (by rw [h])
      | isFalse h => isFalse (fun c => h (by injection c))

/-- Decidable equality on lists of `Json`. -/
def Json.decEqList : (a b : List Json) → Decidable (a = b)
  | [], [] => isTrue rfl
  | [], _ :: _ => isFalse (fun h => List.noConfusion h)
  | _ :: _, [] => isFalse (fun h => List.noConfusion h)
  | x :: xs, y :: ys =>
      match Json.decEq x y, Json.decEqList xs ys with
      | isTrue h1, isTrue h2 => isTrue (by rw [h1, h2])
      | isFalse h1, _ => isFalse (fun c => h1 (by injection c))
      | isTrue _, isFalse h2 => isFalse (fun c => h2 (by injection c))

/-- Decidable equality on association lists of `Json`. -/
def Json.decEqFields : (a b : List (String × Json)) → Decidable (a = b)
  | [], [] => isTrue rfl
  | [], _ :: _ => isFalse (fun h => List.noConfusion h)
  | _ :: _, [] => isFalse (fun h => List.noConfusion h)
  | (k, v) :: xs, (l, w) :: ys =>
      match String.decEq k l, Json.decEq v w, Json.decEqFields xs ys with
      | isTrue h0, isTrue h1, isTrue h2 => isTrue (by rw [h0, h1, h2])
      | isFalse h0, _, _ =>
          isFalse (fun c => h0 (by injection c with c1 c2; exact congrArg Prod.fst c1))
      | isTrue _, isFalse h1, _ =>
          isFalse (fun c => h1 (by injection c with c1 c2; exact congrArg Prod.snd c1))
      | isTrue _, isTrue _, isFalse h2 => isFalse (fun c => h2 (by injection c))

end

instance : DecidableEq Json := Json.decEq

instance {ε α : Type} [DecidableEq ε] [DecidableEq α] : DecidableEq (Except ε α) := by
  intro a b
  cases a with
  | error e =>
      cases b with
      | error f =>
          exact if h : e = f then isTrue (by rw [h]) else isFalse (fun c => h (by injection c))
      | ok y => exact isFalse (fun c => Except.noConfusion c)
  | ok x =>
      cases b with
      | error f => exact isFalse (fun c => Except.noConfusion c)
      | ok y =>
          exact if h : x = y then isTrue (by rw [h]) else isFalse (fun c => h (by injection c))

/-- Python `d.get(k)` on a dict: the value at the first occurrence of `k`. -/
def dGet : List (String × Json) → String → Option Json
  | [], _ => none
  | (k', v) :: fs, k => if k' == k then some v else dGet fs k

/-- Python `k in d` on a dict. -/
def dHas (fs : List (String × Json)) (k : String) : Bool :=
  (dGet fs k).isSome

/-- Replace the value at every occurrence of `k`, in place. -/
def dSetInPlace : List (String × Json) → String → Json → List (String × Json)
  | [], _, _ => []
  | (k', v') :: fs, k, v =>
      if k' == k then (k, v) :: dSetInPlace fs k v else (k', v') :: dSetInPlace fs k v

/-- Python `d[k] = v` on a dict: replace in place, or append when absent. -/
def dSet (fs : List (String × Json)) (k : String) (v : Json) : List (String × Json) :=
  if dHas fs k then dSetInPlace fs k v else fs ++ [(k, v)]

/-- Python `del d[k]` on a dict. -/
def dDel : List (String × Json) → String → List (String × Json)
  | [], _ => []
  | (k', v') :: fs, k => if k' == k then dDel fs k else (k', v') :: dDel fs k

/-- Python truthiness of a JSON-shaped value. -/
def truthy : Json → Bool
  | Json.null => false
  | Json.bool b => b
  | Json.num n => n != 0
  | Json.str s => s != ""
  | Json.arr xs => !xs.isEmpty
  | Json.obj fs => !fs.isEmpty

/-- `pre` is a prefix of `s` (char-list based, so that the kernel can
evaluate it; `String.startsWith` itself is byte-position based). -/
def pyStartsWith (s pre : String) : Bool :=
  pre.data.isPrefixOf s.data

/-- Python `s[n:]`: drop the first `n` characters. -/
def pyDrop (s : String) (n : Nat) : String :=
  String.mk (s.data.drop n)

/-- Substring search over char lists. -/
def charListContainsSub (sub : List Char) : List Char → Bool
  | [] => sub.isPrefixOf []
  | c :: tl => sub.isPrefixOf (c :: tl) || charListContainsSub sub tl

/-- Python `sub in s` on strings: substring containment. -/
def strContainsSubstr (s sub : String) : Bool :=
  charListContainsSub sub.data s.data

/-- Python `len(v)`: defined for strings, lists and dicts, a `TypeError`
(`none`) otherwise. -/
def pyLen : Json → Option Nat
  | Json.str s => some s.length
  | Json.arr xs => some xs.length
  | Json.obj fs => some fs.length
  | _ => none

/-- Python `k in v` for a string `k`: key lookup on a dict, membership on a
list, substring test on a string, a `TypeError` (`none`) otherwise. -/
def pyContainsStr (v : Json) (k : String) : Option Bool :=
  match v with
  | Json.obj fs => some (dHas fs k)
  | Json.arr xs => some (xs.contains (Json.str k))
  | Json.str s => some (strContainsSubstr s k)
  | _ => none

/-- Characters at which Python `str.splitlines` breaks a line. -/
def isLineBreakChar (c : Char) : Bool :=
  c == '\n' || c == '\r' || c == '\x0b' || c == '\x0c' ||
  c == '\x1c' || c == '\x1d' || c == '\x1e' || c == '\x85' ||
  c == '\u2028' || c == '\u2029'

/-- Worker for `pySplitlines`, accumulating the current line reversed. -/
def pySplitlinesAux : List Char → List Char → List String
  | [], acc => if acc.isEmpty then [] else [String.mk acc.reverse]
  | '\r' :: '\n' :: cs, acc => String.mk acc.reverse :: pySplitlinesAux cs []
  | c :: cs, acc =>
      if isLineBreakChar c then String.mk acc.reverse :: pySplitlinesAux cs []
      else pySplitlinesAux cs (c :: acc)

/-- Python `s.splitlines()`: `"\r\n"` is one break, a trailing break adds no
empty final line, the empty string has no lines. -/
def pySplitlines (s : String) : List String :=
  pySplitlinesAux s.data []

/-- The scanning loop of `utils.parse_sse_json`: at the first line starting
with `"data: "` the result is whatever `json.loads` gives on the rest of
that line -- `none` (the source prints a message and returns `None`) when it
fails to decode.  Later `data:` lines are never examined. -/
def sseScan (jsonLoads : String → Option Json) : List String → Option Json
  | [] => none
  | line :: rest =>
      if pyStartsWith line "data: " then jsonLoads (pyDrop line 6)
      else sseScan jsonLoads rest

/-- `utils.parse_sse_json`, parameterised by `json.loads` (an external
library call, abstracted as an oracle `String → Option Json` where `none`
models `json.JSONDecodeError`). -/
def parse_sse_json (jsonLoads : String → Option Json) (response_text : String) : Option Json :=
  sseScan jsonLoads (pySplitlines response_text)

/-- Modelled from the spec: the Frame Codec the specification describes,
which returns the first successfully decoded payload among all `data:`
lines -- a malformed candidate is skipped and scanning continues.  Stated
here only to compare with `parse_sse_json` above. -/
def specSseScan (jsonLoads : String → Option Json) : List String → Option Json
  | [] => none
  | line :: rest =>
      if pyStartsWith line "data: " then
        match jsonLoads (pyDrop line 6) with
        | some v => some v
        | none => specSseScan jsonLoads rest
      else specSseScan jsonLoads rest

/-- Modelled from the spec: spec-side entry point of the Frame Codec. -/
def spec_parse_sse_json (jsonLoads : String → Option Json) (response_text : String) : Option Json :=
  specSseScan jsonLoads (pySplitlines response_text)

/-- The numeric value of a decimal digit character. -/
def digitVal? (c : Char) : Option Nat :=
  if c == '0' then some 0 else if c == '1' then some 1 else if c == '2' then some 2
  else if c == '3' then some 3 else if c == '4' then some 4 else if c == '5' then some 5
  else if c == '6' then some 6 else if c == '7' then some 7 else if c == '8' then some 8
  else if c == '9' then some 9 else none

/-- Read a non-empty digit sequence as a number. -/
def digitsToNat : List Char → Nat → Option Nat
  | [], acc => some acc
  | c :: cs, acc =>
      match digitVal? c with
      | some d => digitsToNat cs (acc * 10 + d)
      | none => none

/-- A decoder for non-negative integer JSON literals: agrees with
`json.loads` on every string made of digits, and fails (as `json.loads`
does) on anything else it is given in this file. -/
def decodeIntLit (s : String) : Option Json :=
  match s.data with
  | [] => none
  | cs => (digitsToNat cs 0).map (fun n => Json.num (Int.ofNat n))

/-! ### `mcp_host.py`: the protocol session client -/

/-- `mcp_host.MCP_PROTOCOL_VERSION`. -/
def MCP_PROTOCOL_VERSION : String := "2024-11-05"

/-- The mutable fields of `mcp_host.MCPGatewayClient`. -/
structure MCPGatewayClient where
  gateway_url : String
  session_id : Option String
  next_id : Nat
deriving Repr, DecidableEq

/-- `MCPGatewayClient.__init__` with an explicit gateway url (the source
reads it from an argument or the environment). -/
def MCPGatewayClient.init (gateway_url : String) : MCPGatewayClient :=
  { gateway_url := gateway_url, session_id := none, next_id := 1 }

/-- One HTTP response from the gateway, as the client observes it: the
status code, the session-id header (already looked up case-insensitively)
and the body text. -/
structure NetResponse where
  status : Nat
  sessionHeader : Option String
  text : String
deriving Repr, DecidableEq

/-- An HTTP POST the client performed: the JSON body and the headers
(`none` as a header value models Python `None`). -/
structure SentRequest where
  payload : Json
  headers : List (String × Option String)
deriving Repr, DecidableEq

/-- The transport and JSON codec the client talks through: `net` gives the
gateway's HTTP response to a posted JSON body, `jsonLoads` models
`json.loads`. -/
structure NetEnv where
  net : Json → NetResponse
  jsonLoads : String → Option Json

/-- Errors a client call can raise. -/
inductive PyError where
  | httpStatus (status : Nat)
  | runtimeInvalidInitialize (text : String)
  | runtimeToolsListError (err : Json)
  | runtimeToolsCallError (err : Json)
  | typeError
  | keyError (k : String)
deriving Repr, DecidableEq

/-- Python `v[k]` with a string key: dict lookup (`KeyError` when absent),
a `TypeError` on anything that is not a dict. -/
def pySubscript (v : Json) (k : String) : Except PyError Json :=
  match v with
  | Json.obj fs =>
      match dGet fs k with
      | some x => Except.ok x
      | none => Except.error (PyError.keyError k)
  | _ => Except.error PyError.typeError

/-- The headers `initialize` posts with its main request. -/
def initializeHeaders : List (String × Option String) :=
  [("Mcp-Protocol-Version", some MCP_PROTOCOL_VERSION),
   ("Accept", some "application/json, text/event-stream")]

/-- The headers of every post-handshake request (and of the `initialized`
notification), carrying the session id. -/
def sessionHeaders (session_id : Option String) : List (String × Option String) :=
  [("Mcp-Session-Id", session_id),
   ("Mcp-Protocol-Version", some MCP_PROTOCOL_VERSION),
   ("Accept", some "application/json, text/event-stream")]

/-- The JSON-RPC body `initialize` posts (from `mcp_host.py`). -/
def initializePayload (id : Nat) : Json :=
  Json.obj [("jsonrpc", Json.str "2.0"), ("id", Json.num id),
    ("method", Json.str "initialize"),
    ("params", Json.obj [("protocolVersion", Json.str MCP_PROTOCOL_VERSION),
      ("capabilities", Json.obj []),
      ("clientInfo", Json.obj [("name", Json.str "gpt-mcp-bridge"),
        ("version", Json.str "1.0.0")])])]

/-- The body of the `notifications/initialized` notification (no `id`). -/
def notificationPayload : Json :=
  Json.obj [("jsonrpc", Json.str "2.0"), ("method", Json.str "notifications/initialized")]

/-- The JSON-RPC body `list_tools` posts. -/
def listToolsPayload (id : Nat) : Json :=
  Json.obj [("jsonrpc", Json.str "2.0"), ("id", Json.num id),
    ("method", Json.str "tools/list"), ("params", Json.obj [])]

/-- The JSON-RPC body `call_tool` posts. -/
def callToolPayload (id : Nat) (name : String) (arguments : Json) : Json :=
  Json.obj [("jsonrpc", Json.str "2.0"), ("id", Json.num id),
    ("method", Json.str "tools/call"),
    ("params", Json.obj [("name", Json.str name), ("arguments", arguments)])]

/-- `MCPGatewayClient.initialize`: issues the next request id, posts the
handshake, captures the session header, decodes the body, raises when the
body is falsy, then posts the fire-and-forget notification.  Returns the
requests actually posted, the new client state and the Python outcome. -/
def MCPGatewayClient.initialize (st : MCPGatewayClient) (env : NetEnv) :
    List SentRequest × MCPGatewayClient × Except PyError Json :=
  let payload := initializePayload st.next_id
  let st1 : MCPGatewayClient := { st with next_id := st.next_id + 1 }
  let req : SentRequest := { payload := payload, headers := initializeHeaders }
  let resp := env.net payload
  if resp.status ≥ 400 then
    ([req], st1, Except.error (PyError.httpStatus resp.status))
  else
    let st2 : MCPGatewayClient := { st1 with session_id := resp.sessionHeader }
    match parse_sse_json env.jsonLoads resp.text with
    | none => ([req], st2, Except.error (PyError.runtimeInvalidInitialize resp.text))
    | some data =>
        if !truthy data then
          ([req], st2, Except.error (PyError.runtimeInvalidInitialize resp.text))
        else
          let req2 : SentRequest :=
            { payload := notificationPayload, headers := sessionHeaders st2.session_id }
          let resp2 := env.net notificationPayload
          if resp2.status ≥ 400 then
            ([req, req2], st2, Except.error (PyError.httpStatus resp2.status))
          else
            ([req, req2], st2, Except.ok data)

/-- `MCPGatewayClient.list_tools`: issues the next request id, posts the
catalog listing, decodes the body (membership on `None` is a `TypeError`),
raises on an `error` field, and returns `data["result"]["tools"]`. -/
def MCPGatewayClient.list_tools (st : MCPGatewayClient) (env : NetEnv) :
    List SentRequest × MCPGatewayClient × Except PyError Json :=
  let payload := listToolsPayload st.next_id
  let st1 : MCPGatewayClient := { st with next_id := st.next_id + 1 }
  let req : SentRequest := { payload := payload, headers := sessionHeaders st.session_id }
  let resp := env.net payload
  let r : Except PyError Json :=
    match parse_sse_json env.jsonLoads resp.text with
    | none => Except.error PyError.typeError
    | some data =>
        match pyContainsStr data "error" with
        | none => Except.error PyError.typeError
        | some true =>
            match pySubscript data "error" with
            | Except.ok e => Except.error (PyError.runtimeToolsListError e)
            | Except.error e => Except.error e
        | some false =>
            match pySubscript data "result" with
            | Except.ok res => pySubscript res "tools"
            | Except.error e => Except.error e
  ([req], st1, r)

/-- `MCPGatewayClient.call_tool`: builds the invocation payload with the
next request id, posts it unconditionally -- there is no client-side
registry guard of any kind -- then decodes the body, raises carrying
`data["error"]` when that field is present, and otherwise returns
`data["result"]`. -/
def MCPGatewayClient.call_tool (st : MCPGatewayClient) (env : NetEnv)
    (name : String) (arguments : Json) :
    List SentRequest × MCPGatewayClient × Except PyError Json :=
  let payload := callToolPayload st.next_id name arguments
  let st1 : MCPGatewayClient := { st with next_id := st.next_id + 1 }
  let req : SentRequest := { payload := payload, headers := sessionHeaders st.session_id }
  let resp := env.net payload
  let r : Except PyError Json :=
    match parse_sse_json env.jsonLoads resp.text with
    | none => Except.error PyError.typeError
    | some data =>
        match pyContainsStr data "error" with
        | none => Except.error PyError.typeError
        | some true =>
            match pySubscript data "error" with
            | Except.ok e => Except.error (PyError.runtimeToolsCallError e)
            | Except.error e => Except.error e
        | some false => pySubscript data "result"
  ([req], st1, r)

/-- One session-level operation of the client. -/
inductive GatewayOp where
  | opInitialize
  | opListTools
  | opCallTool (name : String) (arguments : Json)
deriving Repr

/-- Run one operation, keeping the requests it posted and the new state. -/
def runOp (env : NetEnv) (st : MCPGatewayClient) :
    GatewayOp → List SentRequest × MCPGatewayClient
  | GatewayOp.opInitialize =>
      let (sent, st', _) := st.initialize env
      (sent, st')
  | GatewayOp.opListTools =>
      let (sent, st', _) := st.list_tools env
      (sent, st')
  | GatewayOp.opCallTool name arguments =>
      let (sent, st', _) := st.call_tool env name arguments
      (sent, st')

/-- Run a sequence of operations, concatenating the posted requests. -/
def runOps (env : NetEnv) (st : MCPGatewayClient) : List GatewayOp → List SentRequest
  | [] => []
  | op :: ops =>
      let (sent, st') := runOp env st op
      sent ++ runOps env st' ops

/-- The `id` field a posted request carries, when it carries one. -/
def requestId (r : SentRequest) : Option Int :=
  match r.payload with
  | Json.obj fs =>
      match dGet fs "id" with
      | some (Json.num n) => some n
      | _ => none
  | _ => none

/-- All request ids issued over a sequence of operations. -/
def issuedIds (env : NetEnv) (st : MCPGatewayClient) (ops : List GatewayOp) : List Int :=
  (runOps env st ops).filterMap requestId

/-! ### `json.dumps` (with Python's default separators) -/

/-- One character of a dumped JSON string.  Faithful for the printable
ASCII characters this development feeds it (Python additionally escapes
other control characters and, by default, non-ASCII). -/
def dumpsEscapeChar (c : Char) : String :=
  if c == '"' then "\\\"" else if c == '\\' then "\\\\"
  else if c == '\n' then "\\n" else if c == '\t' then "\\t"
  else if c == '\r' then "\\r" else String.singleton c

/-- Escape a string as `json.dumps` does. -/
def dumpsEscape (s : String) : String :=
  String.join (s.data.map dumpsEscapeChar)

mutual

/-- `json.dumps(v)` with the default separators `", "` and `": "`. -/
def pyDumps : Json → String
  | Json.null => "null"
  | Json.bool true => "true"
  | Json.bool false => "false"
  | Json.num n => toString n
  | Json.str s => "\"" ++ dumpsEscape s ++ "\""
  | Json.arr xs => "[" ++ pyDumpsList xs ++ "]"
  | Json.obj fs => "\x7b" ++ pyDumpsFields fs ++ "\x7d"

/-- List elements of a dump, comma-separated. -/
def pyDumpsList : List Json → String
  | [] => ""
  | [x] => pyDumps x
  | x :: xs => pyDumps x ++ ", " ++ pyDumpsList xs

/-- Dict entries of a dump, comma-separated. -/
def pyDumpsFields : List (String × Json) → String
  | [] => ""
  | [(k, v)] => "\"" ++ dumpsEscape k ++ "\": " ++ pyDumps v
  | (k, v) :: fs => "\"" ++ dumpsEscape k ++ "\": " ++ pyDumps v ++ ", " ++ pyDumpsFields fs

end

/-! ### `test.py`: schema projection (`fix_openai_schema`, `tool_schema_conversion`) -/

/-- The collapsed replacement for a `type` field that holds a list
(`test.fix_openai_schema`): drop `'null'`, use a single survivor directly,
else prefer `object`, then `array`, then `string`, then fall back to
`object`. -/
def collapsedType (ts : List Json) : Json :=
  let types := ts.filter (fun t => t != Json.str "null")
  if types.length == 1 then types.headD Json.null
  else if types.contains (Json.str "object") then Json.str "object"
  else if types.contains (Json.str "array") then Json.str "array"
  else if types.contains (Json.str "string") then Json.str "string"
  else Json.str "object"

/-- The value the `type` field will hold after `fix_openai_schema`'s
list-collapse step (unchanged when it is not a list). -/
def postCollapseTypeVal (fs : List (String × Json)) : Option Json :=
  match dGet fs "type" with
  | some (Json.arr ts) => some (collapsedType ts)
  | other => other

/-- Whether the `items` field survives `fix_openai_schema`'s deletion step:
it is deleted unless the (post-collapse) `type` equals `'array'`. -/
def keepItemsFlag (fs : List (String × Json)) : Bool :=
  postCollapseTypeVal fs == some (Json.str "array")

/-- The source's note about multiple accepted types: append to an existing
string description, set a fresh one when absent, `TypeError` (`none`) when
the existing description is not a string. -/
def descriptionNote (fs : List (String × Json)) : Option (List (String × Json)) :=
  match dGet fs "description" with
  | none => some (dSet fs "description" (Json.str "Accepts multiple types"))
  | some (Json.str s) => some (dSet fs "description" (Json.str (s ++ " (accepts multiple types)")))
  | some _ => none

/-- The list-collapse step of `fix_openai_schema` on one dict: when `type`
holds a list it is replaced by `collapsedType`, and the source then tests
`len(schema['type']) > 1 or 'null' in schema.get('type', [])` on the NEW
value (a `len` or `in` on a number is a `TypeError`) to decide whether to
amend the description. -/
def typeCollapseStep (fs : List (String × Json)) : Option (List (String × Json)) :=
  match dGet fs "type" with
  | some (Json.arr ts) =>
      let newType := collapsedType ts
      let fs1 := dSet fs "type" newType
      match pyLen newType with
      | none => none
      | some n =>
          if n > 1 then descriptionNote fs1
          else
            match pyContainsStr newType "null" with
            | none => none
            | some true => descriptionNote fs1
            | some false => some fs1
  | _ => some fs

/-- The `items`-deletion step of `fix_openai_schema`: drop `items` when the
(already collapsed) `type` is not the string `'array'`. -/
def itemsDeleteStep (fs : List (String × Json)) : List (String × Json) :=
  if dHas fs "items" && !(dGet fs "type" == some (Json.str "array")) then dDel fs "items"
  else fs

mutual

/-- `test.fix_openai_schema`.  The source mutates one dict in the order:
collapse a list-valued `type`, delete a non-`array` `items`, recurse into
the values of `properties`, recurse into a dict-valued `items`.  Those
steps touch disjoint keys, so the embedding runs the recursion first (over
the original child values, gating the `items` recursion on whether the
deletion step would remove it) and the `type`/`items` steps afterwards;
the result is the same dict.  `none` models an uncaught exception
(`len`/`in` on a number, `.items()` on a non-dict `properties`). -/
def fix_openai_schema : Json → Option Json
  | Json.obj fs => do
      let rfs ← fixFields (keepItemsFlag fs) fs
      let fs2 ← typeCollapseStep rfs
      pure (Json.obj (itemsDeleteStep fs2))
  | j => pure j

/-- Rewrite the child positions `fix_openai_schema` recurses into:
the values inside `properties`, and a dict-valued `items` when it
survives deletion. -/
def fixFields (keep : Bool) : List (String × Json) → Option (List (String × Json))
  | [] => pure []
  | (k, v) :: rest => do
      let v' ←
        if k == "properties" then fixPropertiesVal v
        else if k == "items" then
          if keep then
            match v with
            | Json.obj _ => fix_openai_schema v
            | _ => pure v
          else pure v
        else pure v
      let rest' ← fixFields keep rest
      pure ((k, v') :: rest')

/-- The `properties` value: the source iterates `.items()` over it (a
`TypeError`-like crash when it is not a dict) and fixes every value. -/
def fixPropertiesVal : Json → Option Json
  | Json.obj props => do
      let props' ← fixPairs props
      pure (Json.obj props')
  | _ => none

/-- Fix every value of a `properties` dict. -/
def fixPairs : List (String × Json) → Option (List (String × Json))
  | [] => pure []
  | (k, v) :: rest => do
      let v' ← fix_openai_schema v
      let rest' ← fixPairs rest
      pure ((k, v') :: rest')

end

/-- How one field value is rewritten by the recursion of
`fix_openai_schema` (a named wrapper for the branch inside `fixFields`,
used by the proofs). -/
def fixFieldVal (keep : Bool) (k : String) (v : Json) : Option Json :=
  if k == "properties" then fixPropertiesVal v
  else if k == "items" then
    if keep then
      match v with
      | Json.obj _ => fix_openai_schema v
      | _ => pure v
    else pure v
  else pure v

/-- Unfold one step of `fixFields` through `fixFieldVal`. -/
theorem fixFields_cons (keep : Bool) (k : String) (v : Json) (rest : List (String × Json)) :
    fixFields keep ((k, v) :: rest) =
      (fixFieldVal keep k v).bind (fun v' =>
        (fixFields keep rest).bind (fun rest' => some ((k, v') :: rest'))) := by
  by_cases hp : (k == "properties") = true <;> by_cases hi : (k == "items") = true <;>
    cases keep <;> cases v <;> simp [fixFields, fixFieldVal, hp, hi]

/-- `if input_schema.get('type') is None: input_schema['type'] = 'object'`
(an absent key and an explicit `None` both read back as `None`). -/
def ensureTypeDefault (fs : List (String × Json)) : List (String × Json) :=
  match dGet fs "type" with
  | none => dSet fs "type" (Json.str "object")
  | some Json.null => dSet fs "type" (Json.str "object")
  | some _ => fs

/-- `if 'properties' not in input_schema: input_schema['properties'] = {}`. -/
def ensureProperties (fs : List (String × Json)) : List (String × Json) :=
  if dHas fs "properties" then fs else dSet fs "properties" (Json.obj [])

/-- `input_schema.setdefault("additionalProperties", False)`. -/
def ensureAdditional (fs : List (String × Json)) : List (String × Json) :=
  if dHas fs "additionalProperties" then fs
  else dSet fs "additionalProperties" (Json.bool false)

/-- The per-tool schema pipeline of `test.tool_schema_conversion`: default
the `type` to `'object'` when it is absent or `None`, ensure `properties`,
`setdefault` `additionalProperties` to `False`, then `fix_openai_schema`.
`none` models the crash of the dict accesses on a truthy non-dict. -/
def normalizeInputSchema : Json → Option Json
  | Json.obj fs =>
      fix_openai_schema (Json.obj (ensureAdditional (ensureProperties (ensureTypeDefault fs))))
  | _ => none

/-- Membership in the source's `exposed_tools` set
`{'mcp-find', 'code-mode', 'mcp-exec'}`. -/
def isExposedName (n : Json) : Bool :=
  n == Json.str "mcp-find" || n == Json.str "code-mode" || n == Json.str "mcp-exec"

/-- One entry of the model-facing tool list (the `"function"` part of the
`{"type": "function", "function": ...}` wrapper the source appends). -/
structure OpenAITool where
  name : Json
  description : Json
  parameters : Json
deriving Repr, DecidableEq

/-- The tail of `tool_schema_conversion`'s loop body once the mode filter
admitted the tool: default the description, take `inputSchema or {}`,
normalize, and emit the appended entry (`none` is a crash). -/
def convertKeep (fs : List (String × Json)) : Option (Option OpenAITool) :=
  let name := (dGet fs "name").getD Json.null
  let description := (dGet fs "description").getD (Json.str "")
  let raw := (dGet fs "inputSchema").getD (Json.obj [])
  let raw1 := if truthy raw then raw else Json.obj []
  match normalizeInputSchema raw1 with
  | none => none
  | some params => some (some ⟨name, description, params⟩)

/-- One iteration of `tool_schema_conversion`'s loop on catalog entry `t`:
`none` is a crash, `some none` a `continue` (falsy name, or a name the
mode filter hides), `some (some tool)` an appended tool. -/
def convertOne (mode : String) (t : Json) : Option (Option OpenAITool) :=
  match t with
  | Json.obj fs =>
      let name := (dGet fs "name").getD Json.null
      if !truthy name then some none
      else if mode == "default" && isExposedName name then some none
      else if (mode == "dynamic" || mode == "code") && !isExposedName name then some none
      else convertKeep fs
  | _ => none

/-- `test.tool_schema_conversion`: project a catalog snapshot to the
model-facing tool list for a mode.  In `default` mode every tool except
the three meta-tool names is kept; in `dynamic` and `code` modes only the
three meta-tool names are kept; any other mode applies no name filter.
`none` models an uncaught exception inside the loop. -/
def tool_schema_conversion (mode : String) : List Json → Option (List OpenAITool)
  | [] => some []
  | t :: ts => do
      let r ← convertOne mode t
      let rest ← tool_schema_conversion mode ts
      pure (match r with
        | none => rest
        | some tool => tool :: rest)

/-! ### `prompts.py`: the hand-authored canonical schemas -/

/-- `prompts.LLM_TOOL_SCHEMAS`, transcribed verbatim.  `test.py` never
imports this table (it imports only `SYSTEM_MESSAGES` from `prompts`), so
no part of the conversion above consults it. -/
def LLM_TOOL_SCHEMAS : List (String × Json) :=
  [("mcp-find", Json.obj
     [("type", Json.str "object"),
      ("required", Json.arr [Json.str "query"]),
      ("properties", Json.obj
        [("query", Json.obj
           [("type", Json.str "string"),
            ("description", Json.str "Search query to find MCP servers by name, title, or description. Be specific (e.g., \"wikipedia\", \"github\", \"filesystem\") for best results.")]),
         ("limit", Json.obj
           [("type", Json.str "integer"),
            ("description", Json.str "Maximum number of results to return"),
            ("default", Json.num 10)])]),
      ("additionalProperties", Json.bool false)]),
   ("code-mode", Json.obj
     [("type", Json.str "object"),
      ("required", Json.arr [Json.str "name", Json.str "servers"]),
      ("properties", Json.obj
        [("name", Json.obj
           [("type", Json.str "string"),
            ("description", Json.str "Unique identifier for your custom tool (will be prefixed with 'code-mode-'). Use descriptive names like 'wiki-summary' or 'multi-search'.")]),
         ("servers", Json.obj
           [("type", Json.str "array"),
            ("description", Json.str "List of MCP server names whose tools will be available as JavaScript helper functions in your code environment."),
            ("items", Json.obj [("type", Json.str "string")]),
            ("minItems", Json.num 1)]),
         ("timeout", Json.obj
           [("type", Json.str "integer"),
            ("description", Json.str "Execution timeout in seconds"),
            ("default", Json.num 30)])]),
      ("additionalProperties", Json.bool false)]),
   ("mcp-exec", Json.obj
     [("type", Json.str "object"),
      ("required", Json.arr [Json.str "name", Json.str "arguments"]),
      ("properties", Json.obj
        [("name", Json.obj
           [("type", Json.str "string"),
            ("description", Json.str "Name of the code-mode tool to execute (must start with 'code-mode-', e.g., 'code-mode-wiki-summary')")]),
         ("arguments", Json.obj
           [("type", Json.str "object"),
            ("required", Json.arr [Json.str "script"]),
            ("properties", Json.obj
              [("script", Json.obj
                 [("type", Json.str "string"),
                  ("description", Json.str "JavaScript/TypeScript code to execute. The code has access to helper functions from the MCP servers specified when creating this tool. Use \"return\" to return results.")])]),
            ("additionalProperties", Json.bool false),
            ("description", Json.str "Execution arguments containing the script to run")])]),
      ("additionalProperties", Json.bool false)])]

/-! ### `test.py`: the conversation orchestrator (`gpt_with_mcp`)

The orchestrator drives `MCPGatewayClient` methods that `test.py` calls
but `mcp_host.py` does not define (`find_mcp_servers`, `add_mcp_servers`,
`create_dynamic_code_tool`, `execute_dynamic_code_tool`, and the
attributes `active_servers` / `available_tools`).  Those missing pieces
are modelled from the spec (§4.2 Protocol Session Client, §3 Tool
Registry/ActiveServerSet): discovery returns a list of candidate server
identifiers; activation invokes a meta-tool and on a truthy result appends
the id to the active-server set and re-fetches the registry; registration
returns a result payload; each of them can raise (a gateway error or a
network failure), which the orchestrator's per-call handler catches.  The
gateway's capability state is a catalog snapshot (`GatewayWorld`); only
activation and registration can change it. -/

/-- The gateway-side capability state: the catalog a `tools/list` would
return.  Modelled from the spec: only server activation and custom-tool
registration mutate it. -/
structure GatewayWorld where
  catalog : List Json
deriving Repr, DecidableEq

/-- Modelled from the spec: the client-side bookkeeping `test.py` reads
(`mcp.active_servers`, and the keys of the `mcp.available_tools`
registry); neither attribute exists in `src/mcp_host.py`. -/
structure DynamicClientState where
  active_servers : List String
  available_tools : List Json
deriving Repr, DecidableEq

/-- Modelled from the spec: the Tool Registry is keyed by tool name, so
its key list is the `name` field of every catalog entry. -/
def catalogKeys (catalog : List Json) : List Json :=
  catalog.filterMap (fun t =>
    match t with
    | Json.obj fs => dGet fs "name"
    | _ => none)

/-- One tool call requested by the model: correlation id, function name
and the JSON-encoded argument string. -/
structure ToolCall where
  id : String
  name : String
  argumentsRaw : String
deriving Repr, DecidableEq

/-- The assistant message of one chat-API response. -/
structure AssistantTurn where
  content : Option String
  tool_calls : List ToolCall
deriving Repr, DecidableEq

/-- One chat-API response: the assistant message and the finish signal. -/
structure ChatResp where
  message : AssistantTurn
  finish_reason : String
deriving Repr, DecidableEq

/-- One entry of the conversation history. -/
inductive Message where
  | system (content : Option String)
  | user (content : String)
  | assistant (content : Option String) (tool_calls : List ToolCall)
  | tool (tool_call_id : String) (content : String)
deriving Repr, DecidableEq

/-- The external collaborators of one orchestration run.  `jsonLoads`
models `json.loads`; `chat` the chat API (an `error` is a non-2xx,
fatal); the remaining fields are the gateway-backed client operations
modelled from the spec, each returning a Python result or a raised
error's text. -/
structure OrchEnv where
  jsonLoads : String → Option Json
  chat : List Message → List OpenAITool → Except String ChatResp
  findServers : Json → Except String (List String)
  addServer : GatewayWorld → String → Except String (Bool × GatewayWorld)
  createCodeTool : GatewayWorld → Json → Json → Json → Except String (Json × GatewayWorld)
  execCodeTool : Json → Json → Except String Json
  callToolResult : String → Json → Except String Json
  listToolsFailure : GatewayWorld → Option String

/-- Python `v.get(k, default)`: an `AttributeError` (the raised text) when
`v` is not a dict, the value or the default otherwise (an absent key and
an explicit `None` both come out as `Json.null` when the default is
`Json.null`, exactly as in Python). -/
def pyDictGet (v : Json) (k : String) (default : Json) : Except String Json :=
  match v with
  | Json.obj fs => Except.ok ((dGet fs k).getD default)
  | _ => Except.error "AttributeError"

/-- The text-collecting loop of `test.extract_text_from_content`: keep
`item['text']` of every dict item whose `type` is `"text"` and that has a
`text` key; a non-dict item raises. -/
def collectTextParts : List Json → Except String (List Json)
  | [] => Except.ok []
  | item :: rest =>
      match item with
      | Json.obj fs => do
          let rest' ← collectTextParts rest
          if (dGet fs "type" == some (Json.str "text")) && dHas fs "text" then
            Except.ok (((dGet fs "text").getD Json.null) :: rest')
          else
            Except.ok rest'
      | _ => Except.error "AttributeError"

/-- Turn the collected parts into strings for `"\n".join`; a non-string
part raises a `TypeError`. -/
def asStrs : List Json → Option (List String)
  | [] => some []
  | Json.str s :: rest => (asStrs rest).map (s :: ·)
  | _ => none

/-- `test.extract_text_from_content`: join the text items with newlines,
or `json.dumps` the whole content when no text item was found.  Iterating
a non-empty dict or string visits keys/characters whose `.get` raises;
iterating anything else raises a `TypeError`. -/
def extract_text_from_content : Json → Except String String
  | Json.arr items =>
      match collectTextParts items with
      | Except.error e => Except.error e
      | Except.ok parts =>
          if parts.isEmpty then Except.ok (pyDumps (Json.arr items))
          else
            match asStrs parts with
            | some ss => Except.ok (String.intercalate "\n" ss)
            | none => Except.error "TypeError"
  | Json.obj [] => Except.ok (pyDumps (Json.obj []))
  | Json.obj (_ :: _) => Except.error "AttributeError"
  | Json.str s => if s == "" then Except.ok (pyDumps (Json.str "")) else Except.error "AttributeError"
  | _ => Except.error "TypeError"

/-- The result-to-text rule the `mcp-exec` and generic branches share:
extract the text items when the result is a dict with a `content` key,
`json.dumps` it otherwise. -/
def toolResultText (r : Json) : Except String String :=
  match r with
  | Json.obj fs =>
      if dHas fs "content" then extract_text_from_content ((dGet fs "content").getD Json.null)
      else Except.ok (pyDumps r)
  | _ => Except.ok (pyDumps r)

/-- The body of the orchestrator's `try:` block for one tool call, after
the arguments decoded: the four dispatch branches of `gpt_with_mcp`.
Returns the new gateway/client state, the tool-result text, and whether
the source set `tools_changed` for this call. -/
def dispatchBody (env : OrchEnv) (world : GatewayWorld) (client : DynamicClientState)
    (tool_name : String) (tool_args : Json) :
    Except String (GatewayWorld × DynamicClientState × String × Bool) :=
  if tool_name == "mcp-find" then do
    let q ← pyDictGet tool_args "query" Json.null
    let servers ← env.findServers q
    match servers with
    | [] =>
        Except.ok (world, client, pyDumps (Json.obj [("servers", Json.arr [])]), false)
    | s :: rest => do
        let (activated, world') ← env.addServer world s
        let client' :=
          if activated then
            { active_servers := client.active_servers ++ [s],
              available_tools := catalogKeys world'.catalog }
          else client
        Except.ok (world', client',
          pyDumps (Json.obj [("servers", Json.arr ((s :: rest).map Json.str))]), true)
  else if tool_name == "code-mode" then do
    let nm ← pyDictGet tool_args "name" Json.null
    let srv ← pyDictGet tool_args "servers" Json.null
    let tmo ← pyDictGet tool_args "timeout" (Json.num 30)
    let (result, world') ← env.createCodeTool world nm srv tmo
    Except.ok (world', client, pyDumps result, true)
  else if tool_name == "mcp-exec" then do
    let nm ← pyDictGet tool_args "name" Json.null
    let eargs ← pyDictGet tool_args "arguments" (Json.obj [])
    let script ← pyDictGet eargs "script" (Json.str "")
    let res ← env.execCodeTool nm script
    let txt ← toolResultText res
    Except.ok (world, client, txt, false)
  else do
    let res ← env.callToolResult tool_name tool_args
    let txt ← toolResultText res
    Except.ok (world, client, txt, false)

/-- The outcome of dispatching one tool call. -/
structure DispatchOut where
  world : GatewayWorld
  client : DynamicClientState
  message : Message
  changed : Bool
deriving Repr, DecidableEq

/-- One tool call with its `try/except`: any failure inside the branch
becomes a tool-result message embedding the error text, and leaves the
state unchanged. -/
def dispatchToolCall (env : OrchEnv) (world : GatewayWorld) (client : DynamicClientState)
    (tc_id tool_name : String) (tool_args : Json) : DispatchOut :=
  match dispatchBody env world client tool_name tool_args with
  | Except.ok (w, c, txt, ch) => ⟨w, c, Message.tool tc_id txt, ch⟩
  | Except.error e =>
      ⟨world, client, Message.tool tc_id ("Error calling tool " ++ tool_name ++ ": " ++ e), false⟩

/-- The batch loop of `gpt_with_mcp` over the requested tool calls.  The
`json.loads` of a call's argument string stands OUTSIDE the `try:` in the
source, so a call whose arguments do not decode raises out of the loop:
the whole run crashes (`Except.error`, carrying the messages appended so
far) and the remaining calls are never dispatched. -/
def processToolCalls (env : OrchEnv) :
    GatewayWorld → DynamicClientState → List Message → Bool → List ToolCall →
    Except (List Message) (GatewayWorld × DynamicClientState × List Message × Bool)
  | world, client, msgs, changed, [] => Except.ok (world, client, msgs, changed)
  | world, client, msgs, changed, tc :: rest =>
      match env.jsonLoads tc.argumentsRaw with
      | none => Except.error msgs
      | some args =>
          let d := dispatchToolCall env world client tc.id tc.name args
          processToolCalls env d.world d.client (msgs ++ [d.message]) (changed || d.changed) rest

/-- The loop-carried state of one orchestration run: the history, the
gateway capability state, the spec-modelled client bookkeeping, the most
recently fetched catalog (`mcp_tools`) and the projected schema set
(`openai_tools`). -/
structure LoopState where
  messages : List Message
  world : GatewayWorld
  client : DynamicClientState
  mcp_tools : List Json
  openai_tools : List OpenAITool
deriving Repr, DecidableEq

/-- What one run of `gpt_with_mcp` returns (the source's result dicts):
`done` for a `stop` finish, `maxIterations` for budget exhaustion or an
unexpected finish signal, `crashed` for an uncaught exception. -/
inductive RunResult where
  | done (content : Option String) (active_servers : List String)
      (available_tools : List Json) (full_response : ChatResp)
  | maxIterations (messages : List Message) (active_servers : List String)
      (available_tools : List Json) (full_response : ChatResp)
  | crashed (messages : List Message)
deriving Repr, DecidableEq

/-- The outcome of one loop iteration: the run finished (or crashed), or
it continues with the response that becomes the last `data` and a new
loop state. -/
inductive IterOut where
  | finished (result : RunResult)
  | next (resp : ChatResp) (st : LoopState)
deriving Repr, DecidableEq

/-- One iteration of `gpt_with_mcp`'s `for` loop: call the chat API with
the history and the current schema set; on `stop` return the result dict;
on `tool_calls` with a non-empty list dispatch the batch and -- exactly
when `tools_changed` was raised -- re-fetch the catalog (replacing the
registry) and re-project the schema set for the mode; any other finish
signal breaks out to the max-iterations return. -/
def iterateOnce (env : OrchEnv) (mode : String) (st : LoopState) : IterOut :=
  match env.chat st.messages st.openai_tools with
  | Except.error _ => IterOut.finished (RunResult.crashed st.messages)
  | Except.ok resp =>
      let msgs1 := st.messages ++ [Message.assistant resp.message.content resp.message.tool_calls]
      if resp.finish_reason == "stop" then
        IterOut.finished (RunResult.done resp.message.content st.client.active_servers
          st.client.available_tools resp)
      else if resp.finish_reason == "tool_calls" && !resp.message.tool_calls.isEmpty then
        match processToolCalls env st.world st.client msgs1 false resp.message.tool_calls with
        | Except.error ms => IterOut.finished (RunResult.crashed ms)
        | Except.ok (world', client', msgs2, changed) =>
            if changed then
              match env.listToolsFailure world' with
              | some _ => IterOut.finished (RunResult.crashed msgs2)
              | none =>
                  let cat := world'.catalog
                  let client2 := { client' with available_tools := catalogKeys cat }
                  match tool_schema_conversion mode cat with
                  | none => IterOut.finished (RunResult.crashed msgs2)
                  | some ts => IterOut.next resp ⟨msgs2, world', client2, cat, ts⟩
            else IterOut.next resp ⟨msgs2, world', client', st.mcp_tools, st.openai_tools⟩
      else
        IterOut.finished (RunResult.maxIterations msgs1 st.client.active_servers
          st.client.available_tools resp)

/-- The bounded loop of `gpt_with_mcp`: `fuel` is the remaining iteration
budget, `last` the previous response (the source's `data` variable --
reaching the final return with no iteration ever run is an unbound-name
crash). -/
def gptLoop (env : OrchEnv) (mode : String) :
    Nat → Option ChatResp → LoopState → RunResult
  | 0, last, st =>
      match last with
      | some d =>
          RunResult.maxIterations st.messages st.client.active_servers
            st.client.available_tools d
      | none => RunResult.crashed st.messages
  | n + 1, _, st =>
      match iterateOnce env mode st with
      | IterOut.finished r => r
      | IterOut.next resp st' => gptLoop env mode n (some resp) st'

/-! ## Theorems -/

/-! ### C6: the frame codec -/

/-- Helper: the scan of `parse_sse_json` is entirely determined by the
first `data: ` line. -/
theorem sseScan_eq_find (f : String → Option Json) (ls : List String) :
    sseScan f ls =
      (ls.find? (fun l => pyStartsWith l "data: ")).bind (fun l => f (pyDrop l 6)) := by
  induction ls with
  | nil => rfl
  | cons l rest ih =>
      by_cases h : pyStartsWith l "data: " = true
      · simp [sseScan, h, List.find?_cons_of_pos]
      · simp only [Bool.not_eq_true] at h
        simp [sseScan, h, List.find?_cons_of_neg, ih]

/-- C6 (corrected): for every `json.loads` behaviour and every input text,
`parse_sse_json` returns the decode of the payload of the FIRST
`data: `-carrying line (absent when it fails or when no such line
exists).  Malformed JSON on that first candidate line is fatal: scanning
never continues to a later candidate. -/
theorem C6_frame_codec_first_candidate_only (jsonLoads : String → Option Json)
    (response_text : String) :
    parse_sse_json jsonLoads response_text =
      ((pySplitlines response_text).find? (fun l => pyStartsWith l "data: ")).bind
        (fun l => jsonLoads (pyDrop l 6)) :=
  sseScan_eq_find jsonLoads (pySplitlines response_text)

/-- C6, counterexample to the claim as stated: on the input
`"data: @\ndata: 1"` the first candidate line does not decode
(`json.loads("@")` raises) and a later one does (`json.loads("1") = 1`),
yet `parse_sse_json` returns absent instead of continuing the scan as the
spec-side codec does. -/
theorem C6_counterexample :
    parse_sse_json decodeIntLit "data: @\ndata: 1" = none ∧
    spec_parse_sse_json decodeIntLit "data: @\ndata: 1" = some (Json.num 1) := by
  exact ⟨by decide, by decide⟩

/-! ### C8: request ids -/

/-- Helper: every client operation posts exactly one id-bearing request,
carrying the current `next_id`, and leaves the counter incremented by
one -- whatever the transport answers and wherever the call fails. -/
theorem runOp_ids (env : NetEnv) (st : MCPGatewayClient) (op : GatewayOp) :
    (runOp env st op).1.filterMap requestId = [(st.next_id : Int)] ∧
    (runOp env st op).2.next_id = st.next_id + 1 := by
  cases op with
  | opInitialize =>
      unfold runOp MCPGatewayClient.initialize
      dsimp only
      split
      · exact ⟨rfl, rfl⟩
      · split
        · exact ⟨rfl, rfl⟩
        · split
          · exact ⟨rfl, rfl⟩
          · split
            · exact ⟨rfl, rfl⟩
            · exact ⟨rfl, rfl⟩
  | opListTools => exact ⟨rfl, rfl⟩
  | opCallTool name arguments => exact ⟨rfl, rfl⟩

/-- Helper: over any operation sequence the issued ids are the
consecutive integers starting at the client's current counter. -/
theorem issuedIds_eq (env : NetEnv) (ops : List GatewayOp) :
    ∀ st : MCPGatewayClient,
      issuedIds env st ops = (List.range' st.next_id ops.length).map Int.ofNat := by
  induction ops with
  | nil => intro st; rfl
  | cons op rest ih =>
      intro st
      have h := runOp_ids env st op
      unfold issuedIds runOps
      rw [List.filterMap_append]
      have h2 := ih (runOp env st op).2
      unfold issuedIds at h2
      rw [h.1, h2, h.2]
      simp [List.range'_succ]

/-- C8 (confirmed): from a fresh client (counter starting at 1), every
session-level operation -- handshake, catalog listing, tool invocation --
issues exactly one request id, the ids over any operation sequence are
`1, 2, 3, ...` in order, strictly increasing, and no id is ever reused
(the fire-and-forget notification inside the handshake carries no id). -/
theorem C8_request_ids_strictly_increasing (env : NetEnv) (url : String)
    (ops : List GatewayOp) :
    issuedIds env (MCPGatewayClient.init url) ops =
      (List.range' 1 ops.length).map Int.ofNat ∧
    (issuedIds env (MCPGatewayClient.init url) ops).Pairwise (· < ·) ∧
    (issuedIds env (MCPGatewayClient.init url) ops).Nodup := by
  have h := issuedIds_eq env ops (MCPGatewayClient.init url)
  have hpw : (List.range' 1 ops.length).Pairwise (· < ·) :=
    List.pairwise_lt_range' 1 ops.length
  refine ⟨h, ?_, ?_⟩
  · rw [h]
    exact hpw.map Int.ofNat (fun a b hab => Int.ofNat_lt.mpr hab)
  · rw [h]
    exact ((List.nodup_range' 1 ops.length).map (fun a b hab => Int.ofNat.inj hab))

/-! ### C7: `call_tool` -/

/-- Helper: `dGet` is defined exactly when `dHas` holds. -/
theorem dGet_isSome (fs : List (String × Json)) (k : String) :
    (dGet fs k).isSome = dHas fs k := by
  simp [dGet, dHas]

/-- C7 (corrected): `call_tool` performs no client-side registry guard of
any kind -- the source client does not even hold a registry -- so for
EVERY tool name it posts exactly one invocation request; it then raises a
`RuntimeError` carrying the gateway's error payload exactly when the
decoded response carries an `error` field, and otherwise returns the
decoded `result` payload. -/
theorem C7_call_tool_always_posts (st : MCPGatewayClient) (env : NetEnv)
    (name : String) (arguments : Json) (data : List (String × Json))
    (hdec : parse_sse_json env.jsonLoads
        (env.net (callToolPayload st.next_id name arguments)).text = some (Json.obj data)) :
    (st.call_tool env name arguments).1 =
      [{ payload := callToolPayload st.next_id name arguments,
         headers := sessionHeaders st.session_id }] ∧
    (st.call_tool env name arguments).2.2 =
      (match dGet data "error" with
       | some e => Except.error (PyError.runtimeToolsCallError e)
       | none => pySubscript (Json.obj data) "result") := by
  unfold MCPGatewayClient.call_tool
  dsimp only
  rw [hdec]
  refine ⟨rfl, ?_⟩
  cases h : dGet data "error" with
  | none =>
      have hh : dHas data "error" = false := by
        rw [← dGet_isSome, h]; rfl
      simp [pyContainsStr, hh]
  | some e =>
      have hh : dHas data "error" = true := by
        rw [← dGet_isSome, h]; rfl
      simp [pyContainsStr, hh, pySubscript, h]

/-- A transport for the `call_tool` scenarios: every post is answered with
the SSE body `data: {"result": 7}`, and the decoder agrees with
`json.loads` on the one payload string it is fed. -/
def c7env : NetEnv :=
  { net := fun _ => { status := 200, sessionHeader := some "sess", text := "data: \x7b\"result\": 7\x7d" },
    jsonLoads := fun s =>
      if s = "\x7b\"result\": 7\x7d" then some (Json.obj [("result", Json.num 7)]) else none }

/-- C7, counterexample to the claim as stated: on a fresh client -- whose
registry, if it had one, would be empty -- calling a tool named
`"tool-in-no-registry"` does NOT fail locally before any request is sent:
exactly one invocation request is posted to the gateway and the call
completes with the gateway's result payload; no `UnknownToolError` exists
anywhere in the client. -/
theorem C7_counterexample :
    (MCPGatewayClient.call_tool (MCPGatewayClient.init "http://gateway:8811") c7env
        "tool-in-no-registry" (Json.obj [])).1 =
      [{ payload := callToolPayload 1 "tool-in-no-registry" (Json.obj []),
         headers := sessionHeaders none }] ∧
    (MCPGatewayClient.call_tool (MCPGatewayClient.init "http://gateway:8811") c7env
        "tool-in-no-registry" (Json.obj [])).2.2 = Except.ok (Json.num 7) := by
  exact ⟨by decide, by decide⟩

/-- C7, witness: the always-posts theorem applied at a concrete client,
transport and name. -/
theorem C7_witness :
    (MCPGatewayClient.call_tool (MCPGatewayClient.init "u") c7env
        "wiki-search" (Json.obj [])).1 =
      [{ payload := callToolPayload 1 "wiki-search" (Json.obj []),
         headers := sessionHeaders none }] ∧
    (MCPGatewayClient.call_tool (MCPGatewayClient.init "u") c7env
        "wiki-search" (Json.obj [])).2.2 =
      (match dGet [("result", Json.num 7)] "error" with
       | some e => Except.error (PyError.runtimeToolsCallError e)
       | none => pySubscript (Json.obj [("result", Json.num 7)]) "result") :=
  C7_call_tool_always_posts (MCPGatewayClient.init "u") c7env "wiki-search" (Json.obj [])
    [("result", Json.num 7)] (by decide)

/-! ### C2: mode exposure -/

/-- The three meta-tool names, as the claim groups them. -/
def isMetaName (s : String) : Bool :=
  s == "mcp-find" || s == "code-mode" || s == "mcp-exec"

/-- The exposure predicate claim C2 states (claim-side definition, written
from the claim's words, for comparison with the code): default hides the
meta-tools AND the custom-prefixed names; dynamic shows discovery plus
every non-custom non-meta tool; code shows registration, execution and
the already-created custom tools. -/
def claimedExposure (mode : String) (name : String) : Bool :=
  if mode == "default" then !isMetaName name && !pyStartsWith name "code-mode-"
  else if mode == "dynamic" then
    name == "mcp-find" || (!isMetaName name && !pyStartsWith name "code-mode-")
  else if mode == "code" then
    name == "code-mode" || name == "mcp-exec" || pyStartsWith name "code-mode-"
  else false

/-- The tool names claim C2 would have a catalog expose. -/
def claimedNames (mode : String) (catalog : List Json) : List Json :=
  catalog.filterMap (fun t =>
    match t with
    | Json.obj fs =>
        match dGet fs "name" with
        | some (Json.str s) => if claimedExposure mode s then some (Json.str s) else none
        | _ => none
    | _ => none)

/-- The name filter the source actually applies per mode: default hides
exactly the three meta-tool names (custom-prefixed names pass), dynamic
and code show exactly the three meta-tool names (ordinary and custom
tools are hidden), and any other mode applies no filter. -/
def codeExposure (mode : String) (name : Json) : Bool :=
  if mode == "default" then !isExposedName name
  else if mode == "dynamic" || mode == "code" then isExposedName name
  else true

/-- The name a catalog entry contributes to the projection, per the
source: entries that are not dicts never get this far (the conversion
crashes first), falsy names are skipped, then the mode filter applies. -/
def exposedNameOf (mode : String) (t : Json) : Option Json :=
  match t with
  | Json.obj fs =>
      let nm := (dGet fs "name").getD Json.null
      if truthy nm && codeExposure mode nm then some nm else none
  | _ => none

/-- Helper: a kept entry's name is the entry's `name` field. -/
theorem convertKeep_name (fs : List (String × Json)) (r : Option OpenAITool)
    (h : convertKeep fs = some r) :
    r.map OpenAITool.name = some ((dGet fs "name").getD Json.null) := by
  simp only [convertKeep] at h
  cases hn : normalizeInputSchema
      (if truthy ((dGet fs "inputSchema").getD (Json.obj []))
       then (dGet fs "inputSchema").getD (Json.obj []) else Json.obj []) with
  | none => rw [hn] at h; exact absurd h (by simp)
  | some params =>
      rw [hn] at h
      injection h with h
      subst h
      rfl

/-- Helper: one loop iteration of the conversion keeps exactly the names
`exposedNameOf` describes. -/
theorem convertOne_name (mode : String) (t : Json) (r : Option OpenAITool)
    (h : convertOne mode t = some r) :
    r.map OpenAITool.name = exposedNameOf mode t := by
  cases t with
  | null => exact absurd h (by simp [convertOne])
  | bool b => exact absurd h (by simp [convertOne])
  | num n => exact absurd h (by simp [convertOne])
  | str s => exact absurd h (by simp [convertOne])
  | arr xs => exact absurd h (by simp [convertOne])
  | obj fs =>
      by_cases h1 : truthy ((dGet fs "name").getD Json.null) = true
      · by_cases hmd : (mode == "default") = true
        · by_cases he : isExposedName ((dGet fs "name").getD Json.null) = true
          · simp [convertOne, h1, hmd, he] at h
            subst h
            simp [exposedNameOf, codeExposure, h1, hmd, he]
          · simp only [Bool.not_eq_true] at he
            have hdc : (mode == "dynamic" || mode == "code") = false := by
              cases eq_of_beq hmd; decide
            have h' : convertKeep fs = some r := by
              simpa [convertOne, h1, hmd, he, hdc] using h
            rw [convertKeep_name fs r h']
            simp [exposedNameOf, codeExposure, h1, hmd, he]
        · simp only [Bool.not_eq_true] at hmd
          by_cases hdc : (mode == "dynamic" || mode == "code") = true
          · by_cases he : isExposedName ((dGet fs "name").getD Json.null) = true
            · have h' : convertKeep fs = some r := by
                simpa [convertOne, h1, hmd, he, hdc] using h
              rw [convertKeep_name fs r h']
              simp [exposedNameOf, codeExposure, h1, hmd, hdc, he]
            · simp only [Bool.not_eq_true] at he
              simp [convertOne, h1, hmd, he, hdc] at h
              subst h
              simp [exposedNameOf, codeExposure, h1, hmd, hdc, he]
          · simp only [Bool.not_eq_true] at hdc
            have h' : convertKeep fs = some r := by
              simpa [convertOne, h1, hmd, hdc] using h
            rw [convertKeep_name fs r h']
            simp [exposedNameOf, codeExposure, h1, hmd, hdc]
      · simp only [Bool.not_eq_true] at h1
        simp [convertOne, h1] at h
        subst h
        simp [exposedNameOf, h1]

/-- C2 (corrected): the names a catalog's projection exposes are exactly
those of `exposedNameOf`: in default mode every truthy-named catalog tool
except the three meta-tool names (custom-prefixed names are NOT
excluded); in dynamic and in code mode exactly the catalog tools named
`mcp-find`, `code-mode` or `mcp-exec` (ordinary tools and already-created
custom tools are hidden, and discovery, registration and execution are
all three exposed in both modes). -/
theorem C2_mode_exposure (mode : String) (catalog : List Json) (out : List OpenAITool)
    (h : tool_schema_conversion mode catalog = some out) :
    out.map OpenAITool.name = catalog.filterMap (exposedNameOf mode) := by
  induction catalog generalizing out with
  | nil =>
      simp only [tool_schema_conversion] at h
      injection h with h
      subst h
      rfl
  | cons t ts ih =>
      simp only [tool_schema_conversion, Option.bind_eq_bind, Option.bind] at h
      cases hc : convertOne mode t with
      | none => rw [hc] at h; exact absurd h (by simp)
      | some r =>
          rw [hc] at h
          cases hr : tool_schema_conversion mode ts with
          | none => rw [hr] at h; exact absurd h (by simp)
          | some rest =>
              rw [hr] at h
              injection h with h
              have hname := convertOne_name mode t r hc
              cases r with
              | none =>
                  subst h
                  rw [List.filterMap_cons, ← hname]
                  exact ih rest hr
              | some tool =>
                  subst h
                  rw [List.filterMap_cons, ← hname]
                  simp only [Option.map_some', List.map_cons]
                  rw [ih rest hr]

/-- The catalog of the C2 scenarios: one ordinary tool, one meta-tool,
one custom-prefixed tool. -/
def c2catalog : List Json :=
  [Json.obj [("name", Json.str "wiki-search")],
   Json.obj [("name", Json.str "mcp-find")],
   Json.obj [("name", Json.str "code-mode-foo")]]

/-- C2, counterexample to the claim as stated: in default mode the source
exposes the custom-prefixed `code-mode-foo` (the claim says any name
carrying the custom prefix is excluded), and in dynamic mode it hides the
ordinary `wiki-search` (the claim says every non-custom, non-meta tool is
exposed). -/
theorem C2_counterexample :
    (tool_schema_conversion "default" c2catalog).map (fun l => l.map OpenAITool.name) =
      some [Json.str "wiki-search", Json.str "code-mode-foo"] ∧
    claimedNames "default" c2catalog = [Json.str "wiki-search"] ∧
    (tool_schema_conversion "dynamic" c2catalog).map (fun l => l.map OpenAITool.name) =
      some [Json.str "mcp-find"] ∧
    claimedNames "dynamic" c2catalog = [Json.str "wiki-search", Json.str "mcp-find"] :=
  ⟨by decide, by decide, by decide, by decide⟩

/-- The normalized empty gateway schema. -/
def emptyNormalizedSchema : Json :=
  Json.obj [("type", Json.str "object"), ("properties", Json.obj []),
    ("additionalProperties", Json.bool false)]

/-- The projection of `c2catalog` in default mode. -/
def c2defaultOut : List OpenAITool :=
  [⟨Json.str "wiki-search", Json.str "", emptyNormalizedSchema⟩,
   ⟨Json.str "code-mode-foo", Json.str "", emptyNormalizedSchema⟩]

/-- C2, witness: the exposure characterization applied to `c2catalog` in
default mode. -/
theorem C2_witness :
    c2defaultOut.map OpenAITool.name = c2catalog.filterMap (exposedNameOf "default") :=
  C2_mode_exposure "default" c2catalog c2defaultOut (by decide)

/-! ### C9: schema normalization -/

/-- Setting a present key in place makes it readable. -/
theorem dGet_dSetInPlace_self (fs : List (String × Json)) (k : String) (v : Json)
    (h : dHas fs k = true) : dGet (dSetInPlace fs k v) k = some v := by
  induction fs with
  | nil => simp [dHas, dGet] at h
  | cons p rest ih =>
      obtain ⟨a, b⟩ := p
      by_cases hab : (a == k) = true
      · simp [dSetInPlace, hab, dGet]
      · have hab' : (a == k) = false := by simpa using hab
        simp only [dSetInPlace, hab', Bool.false_eq_true, if_false]
        simp only [dGet, hab', Bool.false_eq_true, if_false]
        exact ih (by simpa [dHas, dGet, hab'] using h)

/-- Appending a fresh key makes it readable. -/
theorem dGet_append_single (fs : List (String × Json)) (k : String) (v : Json)
    (h : dHas fs k = false) : dGet (fs ++ [(k, v)]) k = some v := by
  induction fs with
  | nil => simp [dGet]
  | cons p rest ih =>
      obtain ⟨a, b⟩ := p
      by_cases hab : (a == k) = true
      · simp [dHas, dGet, hab] at h
      · have hab' : (a == k) = false := by simpa using hab
        simp only [List.cons_append, dGet, hab', Bool.false_eq_true, if_false]
        exact ih (by simpa [dHas, dGet, hab'] using h)

/-- `d[k] = v` makes `k` readable as `v`. -/
theorem dGet_dSet_self (fs : List (String × Json)) (k : String) (v : Json) :
    dGet (dSet fs k v) k = some v := by
  by_cases h : dHas fs k = true
  · simp only [dSet, h, if_true]
    exact dGet_dSetInPlace_self fs k v h
  · have h' : dHas fs k = false := by simpa using h
    simp only [dSet, h', Bool.false_eq_true, if_false]
    exact dGet_append_single fs k v h'

/-- In-place update of `k` does not change other keys. -/
theorem dGet_dSetInPlace_ne (fs : List (String × Json)) (k : String) (v : Json) (q : String)
    (hne : (k == q) = false) : dGet (dSetInPlace fs k v) q = dGet fs q := by
  induction fs with
  | nil => rfl
  | cons p rest ih =>
      obtain ⟨a, b⟩ := p
      by_cases hab : (a == k) = true
      · cases eq_of_beq hab
        simp [dSetInPlace, dGet, hne, ih]
      · have hab' : (a == k) = false := by simpa using hab
        simp [dSetInPlace, hab', dGet, ih]

/-- Appending a fresh key does not change other keys. -/
theorem dGet_append_ne (fs : List (String × Json)) (k : String) (v : Json) (q : String)
    (hne : (k == q) = false) : dGet (fs ++ [(k, v)]) q = dGet fs q := by
  induction fs with
  | nil => simp [dGet, hne]
  | cons p rest ih =>
      obtain ⟨a, b⟩ := p
      simp [dGet, ih]

/-- `d[k] = v` does not change other keys. -/
theorem dGet_dSet_ne (fs : List (String × Json)) (k : String) (v : Json) (q : String)
    (hne : (k == q) = false) : dGet (dSet fs k v) q = dGet fs q := by
  by_cases h : dHas fs k = true
  · simp only [dSet, h, if_true]
    exact dGet_dSetInPlace_ne fs k v q hne
  · have h' : dHas fs k = false := by simpa using h
    simp only [dSet, h', Bool.false_eq_true, if_false]
    exact dGet_append_ne fs k v q hne

/-- `d[k] = v` does not change membership of other keys. -/
theorem dHas_dSet_ne (fs : List (String × Json)) (k : String) (v : Json) (q : String)
    (hne : (k == q) = false) : dHas (dSet fs k v) q = dHas fs q := by
  simp [dHas, dGet_dSet_ne fs k v q hne]

/-- `del d[k]` does not change other keys. -/
theorem dGet_dDel_ne (fs : List (String × Json)) (k q : String)
    (hne : (k == q) = false) : dGet (dDel fs k) q = dGet fs q := by
  induction fs with
  | nil => rfl
  | cons p rest ih =>
      obtain ⟨a, b⟩ := p
      by_cases hab : (a == k) = true
      · cases eq_of_beq hab
        simp [dDel, dGet, hne, ih]
      · have hab' : (a == k) = false := by simpa using hab
        simp [dDel, hab', dGet, ih]

/-- `del d[k]` removes `k`. -/
theorem dHas_dDel_self (fs : List (String × Json)) (k : String) :
    dHas (dDel fs k) k = false := by
  induction fs with
  | nil => rfl
  | cons p rest ih =>
      obtain ⟨a, b⟩ := p
      by_cases hab : (a == k) = true
      · simp [dDel, hab, ih]
      · have hab' : (a == k) = false := by simpa using hab
        simpa [dDel, hab', dHas, dGet] using ih

/-- The description note touches only the `description` key. -/
theorem descriptionNote_ne (fs1 fs4 : List (String × Json))
    (h : descriptionNote fs1 = some fs4) (q : String)
    (hne : ("description" == q) = false) :
    dGet fs4 q = dGet fs1 q ∧ dHas fs4 q = dHas fs1 q := by
  unfold descriptionNote at h
  cases hd : dGet fs1 "description" with
  | none =>
      rw [hd] at h
      injection h with h
      subst h
      exact ⟨dGet_dSet_ne fs1 "description" _ q hne,
        dHas_dSet_ne fs1 "description" _ q hne⟩
  | some dv =>
      rw [hd] at h
      cases dv with
      | str sdesc =>
          injection h with h
          subst h
          exact ⟨dGet_dSet_ne fs1 "description" _ q hne,
            dHas_dSet_ne fs1 "description" _ q hne⟩
      | null => exact absurd h (by simp)
      | bool b => exact absurd h (by simp)
      | num n => exact absurd h (by simp)
      | arr xs => exact absurd h (by simp)
      | obj gs => exact absurd h (by simp)

/-- Core of the collapse step: after setting the collapsed `type` and
possibly amending the description, `type` reads back as the collapsed
value and every other key (except `description`) is untouched. -/
theorem collapseWrite_spec (rfs : List (String × Json)) (nt : Json)
    (fs4 : List (String × Json))
    (h : descriptionNote (dSet rfs "type" nt) = some fs4 ∨ fs4 = dSet rfs "type" nt) :
    dGet fs4 "type" = some nt ∧
    (∀ q, ("type" == q) = false → ("description" == q) = false →
      dGet fs4 q = dGet rfs q ∧ dHas fs4 q = dHas rfs q) := by
  cases h with
  | inl h =>
      have hTy := descriptionNote_ne (dSet rfs "type" nt) fs4 h "type" (by decide)
      refine ⟨by rw [hTy.1, dGet_dSet_self], fun q h1 h2 => ?_⟩
      have hq := descriptionNote_ne (dSet rfs "type" nt) fs4 h q h2
      exact ⟨by rw [hq.1, dGet_dSet_ne rfs "type" nt q h1],
        by rw [hq.2, dHas_dSet_ne rfs "type" nt q h1]⟩
  | inr h =>
      subst h
      exact ⟨dGet_dSet_self rfs "type" nt, fun q h1 _ =>
        ⟨dGet_dSet_ne rfs "type" nt q h1, dHas_dSet_ne rfs "type" nt q h1⟩⟩

/-- The collapse step: `type` afterwards reads as `postCollapseTypeVal`,
and keys other than `type`/`description` are untouched. -/
theorem typeCollapseStep_spec (rfs fs4 : List (String × Json))
    (h : typeCollapseStep rfs = some fs4) :
    dGet fs4 "type" = postCollapseTypeVal rfs ∧
    (∀ q, ("type" == q) = false → ("description" == q) = false →
      dGet fs4 q = dGet rfs q ∧ dHas fs4 q = dHas rfs q) := by
  unfold typeCollapseStep at h
  cases ht : dGet rfs "type" with
  | none =>
      rw [ht] at h
      injection h with h
      subst h
      exact ⟨by simp [postCollapseTypeVal, ht], fun q _ _ => ⟨rfl, rfl⟩⟩
  | some tv =>
      rw [ht] at h
      cases tv with
      | arr ts =>
          dsimp only at h
          have hpost : postCollapseTypeVal rfs = some (collapsedType ts) := by
            simp [postCollapseTypeVal, ht]
          rw [hpost]
          cases hl : pyLen (collapsedType ts) with
          | none => rw [hl] at h; exact absurd h (by simp)
          | some n =>
              rw [hl] at h
              dsimp only at h
              by_cases hn : n > 1
              · rw [if_pos hn] at h
                exact collapseWrite_spec rfs (collapsedType ts) fs4 (Or.inl h)
              · rw [if_neg hn] at h
                cases hin : pyContainsStr (collapsedType ts) "null" with
                | none => rw [hin] at h; exact absurd h (by simp)
                | some b =>
                    rw [hin] at h
                    cases b with
                    | true =>
                        dsimp only at h
                        exact collapseWrite_spec rfs (collapsedType ts) fs4 (Or.inl h)
                    | false =>
                        dsimp only at h
                        injection h with h
                        exact collapseWrite_spec rfs (collapsedType ts) fs4 (Or.inr h.symm)
      | null =>
          dsimp only at h
          injection h with h
          subst h
          exact ⟨by simp [postCollapseTypeVal, ht], fun q _ _ => ⟨rfl, rfl⟩⟩
      | bool b =>
          dsimp only at h
          injection h with h
          subst h
          exact ⟨by simp [postCollapseTypeVal, ht], fun q _ _ => ⟨rfl, rfl⟩⟩
      | num n =>
          dsimp only at h
          injection h with h
          subst h
          exact ⟨by simp [postCollapseTypeVal, ht], fun q _ _ => ⟨rfl, rfl⟩⟩
      | str sv =>
          dsimp only at h
          injection h with h
          subst h
          exact ⟨by simp [postCollapseTypeVal, ht], fun q _ _ => ⟨rfl, rfl⟩⟩
      | obj gs =>
          dsimp only at h
          injection h with h
          subst h
          exact ⟨by simp [postCollapseTypeVal, ht], fun q _ _ => ⟨rfl, rfl⟩⟩

/-- The recursion step keeps every key's presence, and the values of all
keys other than `properties` and `items`. -/
theorem fixFields_preserve (keep : Bool) (fs : List (String × Json)) :
    ∀ rfs, fixFields keep fs = some rfs →
      (∀ q, dHas rfs q = dHas fs q) ∧
      (∀ q, (q == "properties") = false → (q == "items") = false →
        dGet rfs q = dGet fs q) := by
  induction fs with
  | nil =>
      intro rfs h
      simp only [fixFields] at h
      injection h with h
      subst h
      exact ⟨fun q => rfl, fun q _ _ => rfl⟩
  | cons p rest ih =>
      intro rfs h
      obtain ⟨a, v⟩ := p
      rw [fixFields_cons] at h
      cases hv : fixFieldVal keep a v with
      | none => rw [hv] at h; exact absurd h (by simp)
      | some v' =>
          rw [hv] at h
          cases hr : fixFields keep rest with
          | none => rw [hr] at h; exact absurd h (by simp)
          | some rest' =>
              rw [hr] at h
              simp only [Option.bind] at h
              injection h with h
              subst h
              obtain ⟨ihHas, ihGet⟩ := ih rest' hr
              constructor
              · intro q
                by_cases hab : (a == q) = true
                · simp [dHas, dGet, hab]
                · have hab' : (a == q) = false := by simpa using hab
                  simpa [dHas, dGet, hab'] using ihHas q
              · intro q hp hi
                by_cases hab : (a == q) = true
                · cases eq_of_beq hab
                  have hval : fixFieldVal keep a v = some v := by
                    simp [fixFieldVal, hp, hi]
                  rw [hval] at hv
                  injection hv with hv
                  subst hv
                  simp [dGet]
                · have hab' : (a == q) = false := by simpa using hab
                  simpa [dGet, hab'] using ihGet q hp hi

/-- The deletion step touches only `items`. -/
theorem itemsDeleteStep_ne (fs4 : List (String × Json)) (q : String)
    (hne : ("items" == q) = false) :
    dGet (itemsDeleteStep fs4) q = dGet fs4 q ∧
    dHas (itemsDeleteStep fs4) q = dHas fs4 q := by
  unfold itemsDeleteStep
  split
  · exact ⟨dGet_dDel_ne fs4 "items" q hne, by simp [dHas, dGet_dDel_ne fs4 "items" q hne]⟩
  · exact ⟨rfl, rfl⟩

/-- When `items` survives the deletion step, the (collapsed) `type` is the
string `'array'`. -/
theorem itemsDeleteStep_items (fs4 : List (String × Json))
    (h : dHas (itemsDeleteStep fs4) "items" = true) :
    dGet fs4 "type" = some (Json.str "array") ∧ itemsDeleteStep fs4 = fs4 := by
  unfold itemsDeleteStep at *
  split at h
  · rw [dHas_dDel_self] at h
    exact absurd h (by simp)
  · rename_i hcond
    refine ⟨?_, if_neg hcond⟩
    rw [Bool.not_eq_true, Bool.and_eq_false_iff] at hcond
    cases hcond with
    | inl hx => rw [hx] at h; exact absurd h (by simp)
    | inr hx =>
        have hx2 : (dGet fs4 "type" == some (Json.str "array")) = true := by
          cases hb : (dGet fs4 "type" == some (Json.str "array")) with
          | false => rw [hb] at hx; exact absurd hx (by simp)
          | true => rfl
        exact eq_of_beq hx2

/-- Unfold `fix_openai_schema` on a dict. -/
theorem fix_openai_schema_obj (fs : List (String × Json)) :
    fix_openai_schema (Json.obj fs) =
      (fixFields (keepItemsFlag fs) fs).bind (fun rfs =>
        (typeCollapseStep rfs).bind (fun fs2 =>
          some (Json.obj (itemsDeleteStep fs2)))) := rfl

/-- `ensureTypeDefault` touches only `type`. -/
theorem ensureTypeDefault_ne (fs : List (String × Json)) (q : String)
    (hne : ("type" == q) = false) :
    dGet (ensureTypeDefault fs) q = dGet fs q ∧ dHas (ensureTypeDefault fs) q = dHas fs q := by
  unfold ensureTypeDefault
  cases ht : dGet fs "type" with
  | none => exact ⟨dGet_dSet_ne fs "type" _ q hne, dHas_dSet_ne fs "type" _ q hne⟩
  | some tv =>
      cases tv with
      | null => exact ⟨dGet_dSet_ne fs "type" _ q hne, dHas_dSet_ne fs "type" _ q hne⟩
      | bool b => exact ⟨rfl, rfl⟩
      | num n => exact ⟨rfl, rfl⟩
      | str sv => exact ⟨rfl, rfl⟩
      | arr ts => exact ⟨rfl, rfl⟩
      | obj gs => exact ⟨rfl, rfl⟩

/-- What `type` reads as after `ensureTypeDefault`. -/
theorem ensureTypeDefault_type (fs : List (String × Json)) :
    dGet (ensureTypeDefault fs) "type" =
      (match dGet fs "type" with
       | none => some (Json.str "object")
       | some Json.null => some (Json.str "object")
       | some v => some v) := by
  unfold ensureTypeDefault
  cases ht : dGet fs "type" with
  | none => exact dGet_dSet_self fs "type" _
  | some tv =>
      cases tv with
      | null => exact dGet_dSet_self fs "type" _
      | bool b => exact ht
      | num n => exact ht
      | str sv => exact ht
      | arr ts => exact ht
      | obj gs => exact ht

/-- `ensureProperties` touches only `properties`. -/
theorem ensureProperties_ne (fs : List (String × Json)) (q : String)
    (hne : ("properties" == q) = false) :
    dGet (ensureProperties fs) q = dGet fs q ∧ dHas (ensureProperties fs) q = dHas fs q := by
  unfold ensureProperties
  split
  · exact ⟨rfl, rfl⟩
  · exact ⟨dGet_dSet_ne fs "properties" _ q hne, dHas_dSet_ne fs "properties" _ q hne⟩

/-- After `ensureProperties` the `properties` key exists. -/
theorem ensureProperties_has (fs : List (String × Json)) :
    dHas (ensureProperties fs) "properties" = true := by
  unfold ensureProperties
  split
  · assumption
  · simp [dHas, dGet_dSet_self]

/-- `ensureAdditional` touches only `additionalProperties`. -/
theorem ensureAdditional_ne (fs : List (String × Json)) (q : String)
    (hne : ("additionalProperties" == q) = false) :
    dGet (ensureAdditional fs) q = dGet fs q ∧ dHas (ensureAdditional fs) q = dHas fs q := by
  unfold ensureAdditional
  split
  · exact ⟨rfl, rfl⟩
  · exact ⟨dGet_dSet_ne fs "additionalProperties" _ q hne,
      dHas_dSet_ne fs "additionalProperties" _ q hne⟩

/-- After `ensureAdditional` the `additionalProperties` key reads as the
original value, defaulted to `False`. -/
theorem ensureAdditional_get (fs : List (String × Json)) :
    dGet (ensureAdditional fs) "additionalProperties" =
      some ((dGet fs "additionalProperties").getD (Json.bool false)) := by
  unfold ensureAdditional
  split
  · rename_i hhas
    rw [dHas] at hhas
    cases hg : dGet fs "additionalProperties" with
    | none => rw [hg] at hhas; exact absurd hhas (by simp)
    | some v => simp [hg]
  · rename_i hhas
    have hg : dGet fs "additionalProperties" = none := by
      rw [dHas] at hhas
      cases hx : dGet fs "additionalProperties" with
      | none => rfl
      | some v => rw [hx] at hhas; exact absurd (by simp) hhas
    rw [hg]
    exact dGet_dSet_self fs "additionalProperties" _

/-- C9 (corrected): for every gateway schema whose normalization succeeds,
the normalized result is a dict in which a `properties` field exists,
`additionalProperties` is the gateway value defaulted to `False`, a `type`
that was absent or `null` has become the string `'object'`, a `type` that
was declared as a list has been collapsed by `collapsedType` (null
dropped; a single survivor used directly; otherwise precedence `object`,
then `array`, then `string`, then `object` as fallback), and an `items`
field is retained only when the resulting `type` is `'array'`.  No
hand-authored canonical schema is ever consulted. -/
theorem C9_schema_normalization (fs : List (String × Json)) (out : Json)
    (h : normalizeInputSchema (Json.obj fs) = some out) :
    ∃ fsOut, out = Json.obj fsOut ∧
      dHas fsOut "properties" = true ∧
      dGet fsOut "additionalProperties" =
        some ((dGet fs "additionalProperties").getD (Json.bool false)) ∧
      ((dGet fs "type" = none ∨ dGet fs "type" = some Json.null) →
        dGet fsOut "type" = some (Json.str "object")) ∧
      (∀ ts, dGet fs "type" = some (Json.arr ts) →
        dGet fsOut "type" = some (collapsedType ts)) ∧
      (dHas fsOut "items" = true → dGet fsOut "type" = some (Json.str "array")) := by
  simp only [normalizeInputSchema] at h
  rw [fix_openai_schema_obj] at h
  cases hff : fixFields
      (keepItemsFlag (ensureAdditional (ensureProperties (ensureTypeDefault fs))))
      (ensureAdditional (ensureProperties (ensureTypeDefault fs))) with
  | none => rw [hff] at h; exact absurd h (by simp)
  | some rfs =>
      rw [hff] at h
      simp only [Option.bind] at h
      cases htc : typeCollapseStep rfs with
      | none => rw [htc] at h; exact absurd h (by simp)
      | some fs4 =>
          rw [htc] at h
          simp only [Option.bind] at h
          injection h with h
          obtain ⟨hFFhas, hFFget⟩ := fixFields_preserve _ _ rfs hff
          have hTC := typeCollapseStep_spec rfs fs4 htc
          refine ⟨itemsDeleteStep fs4, h.symm, ?_, ?_, ?_, ?_, ?_⟩
          · rw [(itemsDeleteStep_ne fs4 "properties" (by decide)).2,
              (hTC.2 "properties" (by decide) (by decide)).2,
              hFFhas "properties",
              (ensureAdditional_ne _ "properties" (by decide)).2]
            exact ensureProperties_has _
          · rw [(itemsDeleteStep_ne fs4 "additionalProperties" (by decide)).1,
              (hTC.2 "additionalProperties" (by decide) (by decide)).1,
              hFFget "additionalProperties" (by decide) (by decide),
              ensureAdditional_get,
              (ensureProperties_ne _ "additionalProperties" (by decide)).1,
              (ensureTypeDefault_ne fs "additionalProperties" (by decide)).1]
          · intro habs
            have hty1 : dGet (ensureTypeDefault fs) "type" = some (Json.str "object") := by
              rw [ensureTypeDefault_type]
              cases habs with
              | inl hx => rw [hx]
              | inr hx => rw [hx]
            have htyr : dGet rfs "type" = some (Json.str "object") := by
              rw [hFFget "type" (by decide) (by decide),
                (ensureAdditional_ne _ "type" (by decide)).1,
                (ensureProperties_ne _ "type" (by decide)).1]
              exact hty1
            rw [(itemsDeleteStep_ne fs4 "type" (by decide)).1, hTC.1,
              postCollapseTypeVal, htyr]
          · intro ts hts
            have hty1 : dGet (ensureTypeDefault fs) "type" = some (Json.arr ts) := by
              rw [ensureTypeDefault_type, hts]
            have htyr : dGet rfs "type" = some (Json.arr ts) := by
              rw [hFFget "type" (by decide) (by decide),
                (ensureAdditional_ne _ "type" (by decide)).1,
                (ensureProperties_ne _ "type" (by decide)).1]
              exact hty1
            rw [(itemsDeleteStep_ne fs4 "type" (by decide)).1, hTC.1,
              postCollapseTypeVal, htyr]
          · intro hitems
            obtain ⟨hty, heq⟩ := itemsDeleteStep_items fs4 hitems
            rw [heq, hty]

/-- The catalog of the C9 counterexample: the catalog carries `mcp-find`
with a minimal gateway schema that differs from the hand-authored one. -/
def c9catalog : List Json :=
  [Json.obj [("name", Json.str "mcp-find"),
    ("inputSchema", Json.obj [("type", Json.str "object")])]]

/-- C9, counterexample to the claim as stated: a hand-authored canonical
schema for `mcp-find` exists in `prompts.LLM_TOOL_SCHEMAS`, yet the
projected parameter schema is the normalized gateway schema, not the
canonical one -- the conversion never consults the table. -/
theorem C9_counterexample :
    (tool_schema_conversion "dynamic" c9catalog).map (fun l => l.map OpenAITool.parameters) =
      some [Json.obj [("type", Json.str "object"), ("properties", Json.obj []),
        ("additionalProperties", Json.bool false)]] ∧
    dGet LLM_TOOL_SCHEMAS "mcp-find" ≠ none ∧
    (tool_schema_conversion "dynamic" c9catalog).map (fun l => l.map OpenAITool.parameters) ≠
      some [(dGet LLM_TOOL_SCHEMAS "mcp-find").getD Json.null] :=
  ⟨by decide, by decide, by decide⟩

/-- A gateway schema exercising the list-collapse and items-deletion
steps. -/
def c9schema : List (String × Json) :=
  [("type", Json.arr [Json.str "string", Json.str "null"]), ("items", Json.obj [])]

/-- C9, witness: the normalization theorem applied at a concrete gateway
schema (list-typed `type`, an `items` field that must be dropped). -/
theorem C9_witness :
    ∃ fsOut,
      Json.obj [("type", Json.str "string"), ("properties", Json.obj []),
          ("additionalProperties", Json.bool false),
          ("description", Json.str "Accepts multiple types")] = Json.obj fsOut ∧
      dHas fsOut "properties" = true ∧
      dGet fsOut "additionalProperties" =
        some ((dGet c9schema "additionalProperties").getD (Json.bool false)) ∧
      ((dGet c9schema "type" = none ∨ dGet c9schema "type" = some Json.null) →
        dGet fsOut "type" = some (Json.str "object")) ∧
      (∀ ts, dGet c9schema "type" = some (Json.arr ts) →
        dGet fsOut "type" = some (collapsedType ts)) ∧
      (dHas fsOut "items" = true → dGet fsOut "type" = some (Json.str "array")) :=
  C9_schema_normalization c9schema
    (Json.obj [("type", Json.str "string"), ("properties", Json.obj []),
      ("additionalProperties", Json.bool false),
      ("description", Json.str "Accepts multiple types")]) (by decide)

/-! ### C4: the discovery handler -/

/-- Successful monadic bind in `Except`, unpacked. -/
theorem except_bind_ok {α β : Type} (x : Except String α) (f : α → Except String β) (v : β) :
    (x >>= f) = Except.ok v ↔ ∃ a, x = Except.ok a ∧ f a = Except.ok v := by
  cases x with
  | error e => simp [Bind.bind, Except.bind]
  | ok a => simp [Bind.bind, Except.bind]

/-- Failing monadic bind in `Except`, unpacked. -/
theorem except_bind_error {α β : Type} (x : Except String α) (f : α → Except String β)
    (e : String) :
    (x >>= f) = Except.error e ↔
      x = Except.error e ∨ ∃ a, x = Except.ok a ∧ f a = Except.error e := by
  cases x with
  | error e' => simp [Bind.bind, Except.bind]
  | ok a => simp [Bind.bind, Except.bind]

/-- What the `mcp-find` branch of the dispatcher computes once the query
was read and discovery returned a non-empty candidate list: the first
candidate is activated; whether the activation call returns `True` or
`False`, the result text is the serialized full candidate list and the
`tools_changed` flag is raised; an activation that raises propagates its
error (to be caught by the per-call handler). -/
theorem dispatchBody_find (env : OrchEnv) (world : GatewayWorld)
    (client : DynamicClientState) (args : Json) (q : Json) (s : String) (rest : List String)
    (hq : pyDictGet args "query" Json.null = Except.ok q)
    (hf : env.findServers q = Except.ok (s :: rest)) :
    dispatchBody env world client "mcp-find" args =
      (match env.addServer world s with
       | Except.ok (activated, world') =>
           Except.ok (world',
             (if activated then
                { active_servers := client.active_servers ++ [s],
                  available_tools := catalogKeys world'.catalog }
              else client),
             pyDumps (Json.obj [("servers", Json.arr ((s :: rest).map Json.str))]),
             true)
       | Except.error e => Except.error e) := by
  unfold dispatchBody
  rw [if_pos (by decide : (("mcp-find" == "mcp-find") = true))]
  cases ha : env.addServer world s with
  | ok r =>
      obtain ⟨activated, world'⟩ := r
      rw [except_bind_ok]
      exact ⟨q, hq, by rw [except_bind_ok]; exact ⟨s :: rest, hf, by simp [ha, Bind.bind, Except.bind]⟩⟩
  | error e =>
      rw [except_bind_error]
      right
      exact ⟨q, hq, by
        rw [except_bind_error]
        right
        exact ⟨s :: rest, hf, by simp [ha, Bind.bind, Except.bind]⟩⟩

/-- C4 (corrected): for a discovery call whose candidate list is
non-empty, the orchestrator auto-activates the first candidate; when the
activation call RETURNS (truthy or falsy result alike) the tool-result
message carries the JSON object with the full candidate list; but when
the activation RAISES, the per-call handler replaces the payload with the
error text, so the candidate list is not delivered. -/
theorem C4_discovery_result (env : OrchEnv) (world : GatewayWorld)
    (client : DynamicClientState) (tc_id : String) (args : Json) (q : Json)
    (s : String) (rest : List String)
    (hq : pyDictGet args "query" Json.null = Except.ok q)
    (hf : env.findServers q = Except.ok (s :: rest)) :
    (match env.addServer world s with
     | Except.ok (activated, world') =>
         dispatchToolCall env world client tc_id "mcp-find" args =
           ⟨world',
            (if activated then
               { active_servers := client.active_servers ++ [s],
                 available_tools := catalogKeys world'.catalog }
             else client),
            Message.tool tc_id
              (pyDumps (Json.obj [("servers", Json.arr ((s :: rest).map Json.str))])),
            true⟩
     | Except.error e =>
         dispatchToolCall env world client tc_id "mcp-find" args =
           ⟨world, client,
            Message.tool tc_id ("Error calling tool mcp-find: " ++ e), false⟩) := by
  have hbody := dispatchBody_find env world client args q s rest hq hf
  cases ha : env.addServer world s with
  | ok r =>
      obtain ⟨activated, world'⟩ := r
      rw [ha] at hbody
      dsimp only at hbody ⊢
      unfold dispatchToolCall
      rw [hbody]
  | error e =>
      rw [ha] at hbody
      dsimp only at hbody ⊢
      unfold dispatchToolCall
      rw [hbody]
      dsimp only
      rw [show ("Error calling tool " ++ "mcp-find" ++ ": " : String) =
        "Error calling tool mcp-find: " from by decide]

/-! ### C5: per-call isolation in a batch -/

/-- The correlation id a history entry carries, when it is a tool-result. -/
def msgToolId : Message → Option String
  | Message.tool i _ => some i
  | _ => none

/-- Helper: whatever happens inside the handler, one dispatched call
produces one tool-result message carrying the call's correlation id. -/
theorem dispatchToolCall_message (env : OrchEnv) (w : GatewayWorld)
    (c : DynamicClientState) (i n : String) (a : Json) :
    ∃ txt, (dispatchToolCall env w c i n a).message = Message.tool i txt := by
  unfold dispatchToolCall
  cases hb : dispatchBody env w c n a with
  | ok r =>
      obtain ⟨w', c', t, ch⟩ := r
      exact ⟨t, rfl⟩
  | error e => exact ⟨"Error calling tool " ++ n ++ ": " ++ e, rfl⟩

/-- C5 (corrected): PROVIDED every call's argument string decodes as
JSON, the batch loop completes without crashing and appends exactly one
tool-result message per requested call, in the order requested, each
carrying that call's correlation id -- a failing handler is caught and
encoded as error text in that call's result, and the remaining calls are
still dispatched.  (Without the proviso, a single undecodable argument
string crashes the whole batch: see the counterexample.) -/
theorem C5_batch_isolation (env : OrchEnv) (tcs : List ToolCall) :
    ∀ world client msgs changed,
      (∀ tc ∈ tcs, (env.jsonLoads tc.argumentsRaw).isSome = true) →
      ∃ world' client' out changed',
        processToolCalls env world client msgs changed tcs =
          Except.ok (world', client', msgs ++ out, changed') ∧
        out.map msgToolId = tcs.map (fun tc => some tc.id) := by
  induction tcs with
  | nil =>
      intro w c msgs ch _
      exact ⟨w, c, [], ch, by simp [processToolCalls], rfl⟩
  | cons tc rest ih =>
      intro w c msgs ch hall
      have htc := hall tc (by simp)
      cases hj : env.jsonLoads tc.argumentsRaw with
      | none => rw [hj] at htc; exact absurd htc (by simp)
      | some args =>
          obtain ⟨w', c', out, ch', hrun, hids⟩ :=
            ih (dispatchToolCall env w c tc.id tc.name args).world
               (dispatchToolCall env w c tc.id tc.name args).client
               (msgs ++ [(dispatchToolCall env w c tc.id tc.name args).message])
               (ch || (dispatchToolCall env w c tc.id tc.name args).changed)
               (fun t ht => hall t (by simp [ht]))
          refine ⟨w', c', (dispatchToolCall env w c tc.id tc.name args).message :: out, ch', ?_, ?_⟩
          · simp only [processToolCalls, hj]
            rw [hrun, List.append_assoc, List.singleton_append]
          · obtain ⟨txt, htxt⟩ := dispatchToolCall_message env w c tc.id tc.name args
            simp [htxt, msgToolId, hids]

/-! ### C1: catalog re-fetch after mutation -/

/-- Helper: a handler run that did not raise `tools_changed` left the
gateway capability state untouched (only the discovery-with-candidates
and registration branches mutate it, and both raise the flag). -/
theorem dispatchBody_unchanged (env : OrchEnv) (w : GatewayWorld) (c : DynamicClientState)
    (n : String) (a : Json) (w' : GatewayWorld) (c' : DynamicClientState) (t : String)
    (h : dispatchBody env w c n a = Except.ok (w', c', t, false)) : w' = w := by
  unfold dispatchBody at h
  by_cases h1 : (n == "mcp-find") = true
  · rw [if_pos h1] at h
    rw [except_bind_ok] at h
    obtain ⟨q, hq, h⟩ := h
    rw [except_bind_ok] at h
    obtain ⟨srvs, hf, h⟩ := h
    cases srvs with
    | nil =>
        dsimp only at h
        injection h with h
        exact (congrArg Prod.fst h).symm
    | cons s srest =>
        dsimp only at h
        rw [except_bind_ok] at h
        obtain ⟨r, ha, h⟩ := h
        obtain ⟨b, w2⟩ := r
        dsimp only at h
        injection h with h
        have hfl : (true : Bool) = false := congrArg (fun p => p.2.2.2) h
        exact absurd hfl (by decide)
  · rw [if_neg h1] at h
    by_cases h2 : (n == "code-mode") = true
    · rw [if_pos h2] at h
      rw [except_bind_ok] at h
      obtain ⟨nm, _, h⟩ := h
      rw [except_bind_ok] at h
      obtain ⟨srv, _, h⟩ := h
      rw [except_bind_ok] at h
      obtain ⟨tmo, _, h⟩ := h
      rw [except_bind_ok] at h
      obtain ⟨r, _, h⟩ := h
      obtain ⟨res, w2⟩ := r
      dsimp only at h
      injection h with h
      have hfl : (true : Bool) = false := congrArg (fun p => p.2.2.2) h
      exact absurd hfl (by decide)
    · rw [if_neg h2] at h
      by_cases h3 : (n == "mcp-exec") = true
      · rw [if_pos h3] at h
        rw [except_bind_ok] at h
        obtain ⟨nm, _, h⟩ := h
        rw [except_bind_ok] at h
        obtain ⟨ea, _, h⟩ := h
        rw [except_bind_ok] at h
        obtain ⟨sc, _, h⟩ := h
        rw [except_bind_ok] at h
        obtain ⟨res, _, h⟩ := h
        rw [except_bind_ok] at h
        obtain ⟨txt, _, h⟩ := h
        injection h with h
        exact (congrArg Prod.fst h).symm
      · rw [if_neg h3] at h
        rw [except_bind_ok] at h
        obtain ⟨res, _, h⟩ := h
        rw [except_bind_ok] at h
        obtain ⟨txt, _, h⟩ := h
        injection h with h
        exact (congrArg Prod.fst h).symm

/-- Helper: lifted to the `try/except` wrapper. -/
theorem dispatchToolCall_unchanged (env : OrchEnv) (w : GatewayWorld)
    (c : DynamicClientState) (i n : String) (a : Json)
    (h : (dispatchToolCall env w c i n a).changed = false) :
    (dispatchToolCall env w c i n a).world = w := by
  unfold dispatchToolCall at h ⊢
  cases hb : dispatchBody env w c n a with
  | error e => rfl
  | ok r =>
      obtain ⟨w', c', t, ch⟩ := r
      rw [hb] at h
      dsimp only at h ⊢
      rw [h] at hb
      exact dispatchBody_unchanged env w c n a w' c' t hb

/-- Helper: a batch whose final `tools_changed` flag is down left the
gateway capability state untouched (and started with the flag down). -/
theorem processToolCalls_unchanged (env : OrchEnv) (tcs : List ToolCall) :
    ∀ w c msgs ch w' c' msgs',
      processToolCalls env w c msgs ch tcs = Except.ok (w', c', msgs', false) →
      w' = w ∧ ch = false := by
  induction tcs with
  | nil =>
      intro w c msgs ch w' c' msgs' h
      simp only [processToolCalls] at h
      injection h with h
      exact ⟨(congrArg Prod.fst h).symm, congrArg (fun p => p.2.2.2) h⟩
  | cons tc rest ih =>
      intro w c msgs ch w' c' msgs' h
      simp only [processToolCalls] at h
      cases hj : env.jsonLoads tc.argumentsRaw with
      | none => rw [hj] at h; exact absurd h (by simp)
      | some args =>
          rw [hj] at h
          obtain ⟨hw, hflag⟩ := ih _ _ _ _ _ _ _ h
          rw [Bool.or_eq_false_iff] at hflag
          refine ⟨?_, hflag.1⟩
          rw [hw]
          exact dispatchToolCall_unchanged env w c tc.id tc.name args hflag.2

/-- C1 (confirmed): whenever one loop iteration continues to a next model
turn, (a) if the batch mutated the gateway capability state then the
continuation's catalog is the freshly re-fetched post-mutation catalog
and its schema set is that catalog's projection for the current mode, and
(b) the invariant "the schema set in effect is the projection of the most
recently fetched catalog" is preserved -- so a stale schema set is never
carried past a mutation. -/
theorem C1_refetch_after_mutation (env : OrchEnv) (mode : String) (st : LoopState)
    (resp : ChatResp) (st' : LoopState)
    (h : iterateOnce env mode st = IterOut.next resp st') :
    (st'.world.catalog ≠ st.world.catalog →
      st'.mcp_tools = st'.world.catalog ∧
      tool_schema_conversion mode st'.mcp_tools = some st'.openai_tools) ∧
    (tool_schema_conversion mode st.mcp_tools = some st.openai_tools →
      tool_schema_conversion mode st'.mcp_tools = some st'.openai_tools) := by
  unfold iterateOnce at h
  cases hchat : env.chat st.messages st.openai_tools with
  | error e => rw [hchat] at h; exact absurd h (by simp)
  | ok resp0 =>
      rw [hchat] at h
      dsimp only at h
      by_cases hstop : (resp0.finish_reason == "stop") = true
      · rw [if_pos hstop] at h; exact absurd h (by simp)
      · rw [if_neg hstop] at h
        by_cases htc : (resp0.finish_reason == "tool_calls" &&
            !resp0.message.tool_calls.isEmpty) = true
        · rw [if_pos htc] at h
          cases hpb : processToolCalls env st.world st.client
              (st.messages ++ [Message.assistant resp0.message.content resp0.message.tool_calls])
              false resp0.message.tool_calls with
          | error ms => rw [hpb] at h; exact absurd h (by simp)
          | ok r =>
              obtain ⟨w', c', m2, changed⟩ := r
              rw [hpb] at h
              cases changed with
              | false =>
                  dsimp only at h
                  injection h with h1 h2
                  obtain ⟨hw, _⟩ := processToolCalls_unchanged env _ _ _ _ _ _ _ _ hpb
                  constructor
                  · intro hne
                    rw [← h2] at hne
                    rw [hw] at hne
                    exact absurd rfl hne
                  · intro hinv
                    rw [← h2]
                    exact hinv
              | true =>
                  dsimp only at h
                  cases hlf : env.listToolsFailure w' with
                  | some e => rw [hlf] at h; exact absurd h (by simp)
                  | none =>
                      rw [hlf] at h
                      dsimp only at h
                      cases hconv : tool_schema_conversion mode w'.catalog with
                      | none => rw [hconv] at h; exact absurd h (by simp)
                      | some ts =>
                          rw [hconv] at h
                          injection h with h1 h2
                          constructor
                          · intro _
                            rw [← h2]
                            exact ⟨rfl, hconv⟩
                          · intro _
                            rw [← h2]
                            exact hconv
        · rw [if_neg htc] at h; exact absurd h (by simp)

/-! ### C3: the DONE return -/

/-- C3 (confirmed): with iteration budget remaining, a model turn whose
finish signal is `stop` makes the run return the final assistant content
together with the run metadata: the active-server list and the known tool
names (plus the raw response). -/
theorem C3_stop_returns_metadata (env : OrchEnv) (mode : String) (n : Nat)
    (last : Option ChatResp) (st : LoopState) (resp : ChatResp)
    (hchat : env.chat st.messages st.openai_tools = Except.ok resp)
    (hstop : resp.finish_reason = "stop") :
    gptLoop env mode (n + 1) last st =
      RunResult.done resp.message.content st.client.active_servers
        st.client.available_tools resp := by
  have hiter : iterateOnce env mode st =
      IterOut.finished (RunResult.done resp.message.content st.client.active_servers
        st.client.available_tools resp) := by
    unfold iterateOnce
    rw [hchat]
    dsimp only
    rw [if_pos (by rw [hstop]; decide)]
  simp only [gptLoop, hiter]

/-! ### Concrete scenarios for the orchestrator claims -/

/-- A default environment for the concrete scenarios: the decoder agrees
with `json.loads` on the one payload string (`"{}"`) these scenarios
feed it, and every gateway operation succeeds blandly. -/
def baseOrchEnv : OrchEnv :=
  { jsonLoads := fun s => if s = "\x7b\x7d" then some (Json.obj []) else none,
    chat := fun _ _ => Except.error "unused",
    findServers := fun _ => Except.ok [],
    addServer := fun w _ => Except.ok (true, w),
    createCodeTool := fun w _ _ _ => Except.ok (Json.str "code-mode-tool", w),
    execCodeTool := fun _ _ => Except.ok (Json.obj []),
    callToolResult := fun _ _ => Except.ok (Json.obj []),
    listToolsFailure := fun _ => none }

/-- C1 scenario: the model requests one `code-mode` registration, which
adds a custom tool to the gateway catalog. -/
def c1env : OrchEnv :=
  { baseOrchEnv with
    chat := fun _ _ => Except.ok
      ⟨⟨none, [⟨"call_1", "code-mode", "\x7b\x7d"⟩]⟩, "tool_calls"⟩,
    createCodeTool := fun w _ _ _ => Except.ok (Json.str "code-mode-summary",
      { catalog := w.catalog ++ [Json.obj [("name", Json.str "code-mode-summary")]] }) }

/-- The loop state the C1 scenario starts from. -/
def c1st : LoopState :=
  { messages := [Message.user "hello"],
    world := { catalog := [] },
    client := { active_servers := [], available_tools := [] },
    mcp_tools := [],
    openai_tools := [] }

/-- The chat response of the C1 scenario. -/
def c1resp : ChatResp :=
  ⟨⟨none, [⟨"call_1", "code-mode", "\x7b\x7d"⟩]⟩, "tool_calls"⟩

/-- The continuation state the C1 scenario reaches. -/
def c1next : LoopState :=
  { messages := [Message.user "hello",
      Message.assistant none [⟨"call_1", "code-mode", "\x7b\x7d"⟩],
      Message.tool "call_1" "\"code-mode-summary\""],
    world := { catalog := [Json.obj [("name", Json.str "code-mode-summary")]] },
    client := ⟨[], [Json.str "code-mode-summary"]⟩,
    mcp_tools := [Json.obj [("name", Json.str "code-mode-summary")]],
    openai_tools := [] }

/-- C1, witness: after the mutating registration the next turn's catalog
is the post-mutation one and the schema set is its projection. -/
theorem C1_witness :
    c1next.mcp_tools = c1next.world.catalog ∧
    tool_schema_conversion "code" c1next.mcp_tools = some c1next.openai_tools :=
  (C1_refetch_after_mutation c1env "code" c1st c1resp c1next (by decide)).1 (by decide)

/-- C3 scenario: the model answers with a `stop` finish right away. -/
def c3env : OrchEnv :=
  { baseOrchEnv with
    chat := fun _ _ => Except.ok ⟨⟨some "The answer", []⟩, "stop"⟩ }

/-- The loop state the C3 scenario starts from. -/
def c3st : LoopState :=
  { messages := [Message.user "q"],
    world := { catalog := [] },
    client := ⟨["wikipedia-mcp"], [Json.str "wiki-search"]⟩,
    mcp_tools := [],
    openai_tools := [] }

/-- C3, witness: the stop theorem applied at the concrete scenario. -/
theorem C3_witness :
    gptLoop c3env "default" 5 none c3st =
      RunResult.done (some "The answer") ["wikipedia-mcp"] [Json.str "wiki-search"]
        ⟨⟨some "The answer", []⟩, "stop"⟩ :=
  C3_stop_returns_metadata c3env "default" 4 none c3st
    ⟨⟨some "The answer", []⟩, "stop"⟩ (by decide) rfl

/-- C4 scenario (counterexample side): discovery finds two candidates but
activating the first raises. -/
def c4env : OrchEnv :=
  { baseOrchEnv with
    findServers := fun _ => Except.ok ["py-docs-mcp", "wiki-mcp"],
    addServer := fun _ _ => Except.error "boom" }

/-- C4, counterexample to the claim as stated: candidates were found and
the first was auto-activated, the activation raised, and the tool-result
content is the error text -- NOT the JSON object `{"servers": [...]}` the
claim promises regardless of activation outcome. -/
theorem C4_counterexample :
    dispatchToolCall c4env ⟨[]⟩ ⟨[], []⟩ "call_1" "mcp-find"
        (Json.obj [("query", Json.str "python")]) =
      ⟨⟨[]⟩, ⟨[], []⟩, Message.tool "call_1" "Error calling tool mcp-find: boom", false⟩ ∧
    pyDumps (Json.obj [("servers", Json.arr [Json.str "py-docs-mcp", Json.str "wiki-mcp"])]) =
      "\x7b\"servers\": [\"py-docs-mcp\", \"wiki-mcp\"]\x7d" ∧
    Message.tool "call_1" "Error calling tool mcp-find: boom" ≠
      Message.tool "call_1" "\x7b\"servers\": [\"py-docs-mcp\", \"wiki-mcp\"]\x7d" :=
  ⟨by decide, by decide, by decide⟩

/-- C4 scenario (witness side): activation returns truthily and grows the
catalog. -/
def c4okenv : OrchEnv :=
  { baseOrchEnv with
    findServers := fun _ => Except.ok ["py-docs-mcp", "wiki-mcp"],
    addServer := fun w s => Except.ok (true,
      { catalog := w.catalog ++ [Json.obj [("name", Json.str s)]] }) }

/-- C4, witness: the discovery theorem applied at the concrete scenario
where activation returns. -/
theorem C4_witness :
    dispatchToolCall c4okenv ⟨[]⟩ ⟨[], []⟩ "call_1" "mcp-find"
        (Json.obj [("query", Json.str "python")]) =
      ⟨⟨[Json.obj [("name", Json.str "py-docs-mcp")]]⟩,
       ⟨["py-docs-mcp"], [Json.str "py-docs-mcp"]⟩,
       Message.tool "call_1"
         (pyDumps (Json.obj [("servers",
           Json.arr [Json.str "py-docs-mcp", Json.str "wiki-mcp"])])),
       true⟩ :=
  C4_discovery_result c4okenv ⟨[]⟩ ⟨[], []⟩ "call_1"
    (Json.obj [("query", Json.str "python")]) (Json.str "python")
    "py-docs-mcp" ["wiki-mcp"] (by decide) (by decide)

/-- C5 scenario: a generic tool that fails and one that succeeds. -/
def c5env : OrchEnv :=
  { baseOrchEnv with
    callToolResult := fun n _ =>
      if n = "failing-tool" then Except.error "fail"
      else Except.ok (Json.obj [("content",
        Json.arr [Json.obj [("type", Json.str "text"), ("text", Json.str "ok")]])]) }

/-- C5, counterexample to the claim as stated: the first call's argument
string does not decode (`json.loads` stands outside the `try:`), so the
whole batch crashes with NO tool-result message at all -- the decodable
second call is never dispatched and its correlation id is never
answered. -/
theorem C5_counterexample :
    processToolCalls c5env ⟨[]⟩ ⟨[], []⟩ [] false
      [⟨"call_bad", "some-tool", "@@"⟩, ⟨"call_good", "other-tool", "\x7b\x7d"⟩] =
      Except.error [] ∧
    (c5env.jsonLoads "\x7b\x7d").isSome = true :=
  ⟨by decide, by decide⟩

/-- C5, witness: the batch theorem applied at a concrete batch with one
failing and one succeeding call. -/
theorem C5_witness :
    ∃ world' client' out changed',
      processToolCalls c5env ⟨[]⟩ ⟨[], []⟩ [] false
        [⟨"call_1", "failing-tool", "\x7b\x7d"⟩, ⟨"call_2", "other-tool", "\x7b\x7d"⟩] =
        Except.ok (world', client', [] ++ out, changed') ∧
      out.map msgToolId = [some "call_1", some "call_2"] :=
  C5_batch_isolation c5env
    [⟨"call_1", "failing-tool", "\x7b\x7d"⟩, ⟨"call_2", "other-tool", "\x7b\x7d"⟩]
    ⟨[]⟩ ⟨[], []⟩ [] false (by decide)

end Bridge